import Mathlib

/-!
Verification of the Eroquiz quiz-session engine
(client quiz component, the file holding `Quiz`, `handleAnswerClick`,
`moveToNextQuestion`, `navigateToQuestion`, `handleSubmitReview`).

The engine is a single-threaded, event-driven state machine.  We embed it
shallowly: React `useState` fields become fields of `QuizState`; each user or
clock event becomes a transition; the render-time end guard and the
`useEffect` hooks that fire after every state change become a normalization
function `postRender` applied after every event.  `Record<number, boolean>`
and `Record<number, number>` maps keyed by question index (always in range)
are represented as lists indexed by position (`List Bool`,
`List (Option Nat)`), read with `getD`.
-/

namespace Eroquiz

/-- A question as loaded into a session: options, 0-based correct-answer
index, point value and category ids (`shared/schema.ts`).  Image fields are
presentation-only and carry no engine behavior, so they are omitted. -/
structure Question where
  id : Nat
  question : String
  options : List String
  correctAnswer : Nat
  points : Nat
  categories : List Nat
deriving Repr, DecidableEq

/-- Game settings (`shared/schema.ts`): whole-quiz duration, lives toggle and
count, review-mode toggle, plus the legacy per-question timer / scoring knobs
that the current engine never reads. -/
structure Settings where
  quizDurationSeconds : Nat
  timerSeconds : Nat
  lives : Int
  livesEnabled : Bool
  reviewModeEnabled : Bool
  pointsPerCorrectAnswer : Nat
  timeBonus : Nat
deriving Repr, DecidableEq

/-- The review payload attached on review-mode submission: the session's
question list plus the recorded answers (`reviewData` in
`handleSubmitReview`). -/
structure ReviewData where
  questions : List Question
  userAnswers : List (Option Nat)
deriving Repr, DecidableEq

/-- The final tally handed to `onQuizEnd` (score reporter): score, number of
answered questions, number of correct answers, optional review payload. -/
structure Tally where
  score : Nat
  answered : Nat
  correct : Nat
  reviewPayload : Option ReviewData
deriving Repr, DecidableEq

/-- The session state: one field per `useState` hook of the engine that
carries engine (not purely presentational) meaning, plus `questions` and
`settings` (fixed at mount), `pendingMoves` (the number of scheduled
`moveToNextQuestion` timeouts) and `finalTally` (what was reported through
`onQuizEnd`, `none` while the session is live). -/
structure QuizState where
  questions : List Question
  settings : Settings
  isReviewMode : Bool
  currentQuestionIndex : Nat
  lives : Int
  score : Nat
  quizTimeLeft : Nat
  selectedAnswer : Option Nat
  isAnswerCorrect : Option Bool
  answeredQuestions : Nat
  correctAnswers : Nat
  isTimerRunning : Bool
  quizEnded : Bool
  answeredQuestionsMap : List Bool
  userAnswers : List (Option Nat)
  visitedQuestionsMap : List Bool
  showReviewScreen : Bool
  pendingMoves : Nat
  finalTally : Option Tally
deriving Repr, DecidableEq

/-- Placeholder used for out-of-range `getD` reads (never reached on the
in-range indices the engine uses). -/
def defaultQuestion : Question :=
  { id := 0, question := "", options := [], correctAnswer := 0, points := 0,
    categories := [] }

/-- The category filter of the mount effect:
`questions.filter(q => q.categories && q.categories.includes(category))`. -/
def categoryQuestions (bank : List Question) (category : Nat) : List Question :=
  bank.filter (fun q => q.categories.contains category)

/-- The question set the session runs on: the category-filtered bank, or the
whole bank when the filter comes back empty (the explicit fallback branch of
the mount effect).  The engine then shuffles this set; the shuffle is a
permutation chosen by `Math.random`, so the state machine below is stated
over an arbitrary order list. -/
def selectQuestions (bank : List Question) (category : Nat) : List Question :=
  let cq := categoryQuestions bank category
  if 0 < cq.length then cq else bank

/-- Number of `true` entries of an answered-map
(`Object.values(map).filter(Boolean).length`). -/
def countTrue : List Bool → Nat
  | [] => 0
  | true :: t => countTrue t + 1
  | false :: t => countTrue t

/-- Number of recorded answers (`Object.keys(userAnswers).length`). -/
def answeredCnt : List (Option Nat) → Nat
  | [] => 0
  | some _ :: t => answeredCnt t + 1
  | none :: t => answeredCnt t

/-- Score of a set of recorded answers against the question list: each
recorded answer equal to its question's correct-answer index contributes that
question's point value (the accumulation loop of `handleSubmitReview`). -/
def scoreOf : List Question → List (Option Nat) → Nat
  | _, [] => 0
  | [], _ :: _ => 0
  | q :: qs, some x :: t =>
      (if x = q.correctAnswer then q.points else 0) + scoreOf qs t
  | _ :: qs, none :: t => scoreOf qs t

/-- Number of recorded answers equal to their question's correct-answer
index. -/
def correctCnt : List Question → List (Option Nat) → Nat
  | _, [] => 0
  | [], _ :: _ => 0
  | q :: qs, some x :: t =>
      (if x = q.correctAnswer then 1 else 0) + correctCnt qs t
  | _ :: qs, none :: t => correctCnt qs t

/-- Number of recorded answers different from their question's
correct-answer index. -/
def incorrectCnt : List Question → List (Option Nat) → Nat
  | _, [] => 0
  | [], _ :: _ => 0
  | q :: qs, some x :: t =>
      (if x = q.correctAnswer then 0 else 1) + incorrectCnt qs t
  | _ :: qs, none :: t => incorrectCnt qs t

/-- Sum of the point values of a question list. -/
def sumPoints : List Question → Nat
  | [] => 0
  | q :: qs => q.points + sumPoints qs

/-- The scan loop of `moveToNextQuestion`: starting at `lo`, examine `n`
consecutive indices and return the first whose answered-map entry is not
`true`. -/
def findUnansweredAux (m : List Bool) : Nat → Nat → Option Nat
  | _, 0 => none
  | lo, n + 1 =>
      if m.getD lo false = false then some lo
      else findUnansweredAux m (lo + 1) n

/-- First index `i` with `lo ≤ i < hi` and `answered[i]` not `true`. -/
def findUnanswered (m : List Bool) (lo hi : Nat) : Option Nat :=
  findUnansweredAux m lo (hi - lo)

/-- The two scans of `moveToNextQuestion`: forward over
`[currentIndex+1, len)`, then (only when the forward scan fails) the wrap
scan over `[0, currentIndex)`. -/
def findNextIndex (s : QuizState) : Option Nat :=
  match findUnanswered s.answeredQuestionsMap (s.currentQuestionIndex + 1)
      s.questions.length with
  | some j => some j
  | none => findUnanswered s.answeredQuestionsMap 0 s.currentQuestionIndex

/-- `moveToNextQuestion`: clear the selection and feedback, end (or show the
review screen) when every question is answered, end when lives are enabled
and exhausted, end a single-question quiz, otherwise move to the first
unanswered question found by the forward-then-wrap scan, ending when the
scans find nothing. -/
def moveToNextQuestion (s0 : QuizState) : QuizState :=
  let s := { s0 with selectedAnswer := none, isAnswerCorrect := none }
  if s.questions.length ≤ countTrue s.answeredQuestionsMap then
    if s.isReviewMode = true then { s with showReviewScreen := true }
    else { s with quizEnded := true }
  else if s.settings.livesEnabled = true ∧ s.lives ≤ 0 then
    { s with quizEnded := true }
  else if s.questions.length = 1 then
    if s.isReviewMode = true then { s with showReviewScreen := true }
    else { s with quizEnded := true }
  else
    match findNextIndex s with
    | none =>
        if s.isReviewMode = true then { s with showReviewScreen := true }
        else { s with quizEnded := true }
    | some n =>
        { s with currentQuestionIndex := n,
                 visitedQuestionsMap := s.visitedQuestionsMap.set n true }

/-- `handleAnswerClick`: reject when a selection is already displayed or the
timer is stopped; otherwise record the answer and mark the question
answered; in review mode only display the selection and defer the advance;
in immediate mode compute correctness, award the question's own points or
deduct a life, count the answer, and defer the advance. -/
def handleAnswerClick (i : Nat) (s : QuizState) : QuizState :=
  if s.selectedAnswer ≠ none ∨ s.isTimerRunning = false then s
  else
    let s1 := { s with
      userAnswers := s.userAnswers.set s.currentQuestionIndex (some i),
      answeredQuestionsMap :=
        s.answeredQuestionsMap.set s.currentQuestionIndex true }
    if s1.isReviewMode = true then
      { s1 with selectedAnswer := some i, pendingMoves := s1.pendingMoves + 1 }
    else
      let q := s1.questions.getD s1.currentQuestionIndex defaultQuestion
      if i = q.correctAnswer then
        { s1 with selectedAnswer := some i, isAnswerCorrect := some true,
                  score := s1.score + q.points,
                  correctAnswers := s1.correctAnswers + 1,
                  answeredQuestions := s1.answeredQuestions + 1,
                  pendingMoves := s1.pendingMoves + 1 }
      else if s1.settings.livesEnabled = true then
        { s1 with selectedAnswer := some i, isAnswerCorrect := some false,
                  lives := s1.lives - 1,
                  answeredQuestions := s1.answeredQuestions + 1,
                  pendingMoves := s1.pendingMoves + 1 }
      else
        { s1 with selectedAnswer := some i, isAnswerCorrect := some false,
                  answeredQuestions := s1.answeredQuestions + 1,
                  pendingMoves := s1.pendingMoves + 1 }

/-- `navigateToQuestion`: reject a jump to the current question, a jump while
the timer is stopped, or (immediate mode) a jump to an answered question;
otherwise, for an in-range index, clear the selection, move the pointer and
mark the target visited. -/
def navigateToQuestion (i : Nat) (s : QuizState) : QuizState :=
  if i = s.currentQuestionIndex
      ∨ (s.isReviewMode = false ∧ s.answeredQuestionsMap.getD i false = true)
      ∨ s.isTimerRunning = false then s
  else if i < s.questions.length then
    { s with selectedAnswer := none, isAnswerCorrect := none,
             currentQuestionIndex := i,
             visitedQuestionsMap := s.visitedQuestionsMap.set i true }
  else s

/-- Clicking a question on the review screen: while the timer runs, leave the
review screen and jump to that question. -/
def reviewEditClick (i : Nat) (s : QuizState) : QuizState :=
  if s.isTimerRunning = true then
    { s with showReviewScreen := false, currentQuestionIndex := i }
  else s

/-- `handleSubmitReview`: reject (toast, no state change) unless every
question has a recorded answer; otherwise score the recorded answers in one
pass, store the totals, end the quiz and report the tally together with the
review payload. -/
def handleSubmitReview (s : QuizState) : QuizState :=
  if answeredCnt s.userAnswers < s.questions.length then s
  else
    let finalScore := scoreOf s.questions s.userAnswers
    let correctCount := correctCnt s.questions s.userAnswers
    { s with score := finalScore,
             correctAnswers := correctCount,
             answeredQuestions := answeredCnt s.userAnswers,
             quizEnded := true,
             finalTally := some (
               { score := finalScore,
                 answered := answeredCnt s.userAnswers,
                 correct := correctCount,
                 reviewPayload := some (
                   { questions := s.questions,
                     userAnswers := s.userAnswers } : ReviewData) } : Tally) }

/-- The render-time end guard: when the quiz is live and the review screen is
not shown, end the quiz as soon as the pointer runs off the list or lives
are enabled and exhausted. -/
def applyEndGuard (s : QuizState) : QuizState :=
  if s.quizEnded = false ∧ s.showReviewScreen = false
      ∧ (s.questions.length ≤ s.currentQuestionIndex
         ∨ (s.settings.livesEnabled = true ∧ s.lives ≤ 0)) then
    { s with quizEnded := true }
  else s

/-- The timer effect's zero branch: when the whole-quiz clock reads zero,
stop the timer and end the quiz, whatever screen is showing. -/
def applyTimeUp (s : QuizState) : QuizState :=
  if s.quizTimeLeft = 0 then
    { s with isTimerRunning := false, quizEnded := true }
  else s

/-- The quiz-end effect: the first time the quiz is ended and nothing has
been reported yet, hand the running totals to `onQuizEnd` with no review
payload. -/
def applyEndTally (s : QuizState) : QuizState :=
  if s.quizEnded = true ∧ s.finalTally = none then
    { s with finalTally := some (
        { score := s.score, answered := s.answeredQuestions,
          correct := s.correctAnswers, reviewPayload := none } : Tally) }
  else s

/-- Everything that runs after an event's handler returns: the render-time
end guard, then the timer-zero effect, then the quiz-end reporting effect. -/
def postRender (s : QuizState) : QuizState :=
  applyEndTally (applyTimeUp (applyEndGuard s))

/-- The state at mount, before the mount-time render and effects: pointer at
question 0 (already marked visited), full clock, configured lives, empty
answer records. -/
def initState (order : List Question) (settings : Settings) : QuizState :=
  { questions := order
    settings := settings
    isReviewMode := settings.reviewModeEnabled
    currentQuestionIndex := 0
    lives := settings.lives
    score := 0
    quizTimeLeft := settings.quizDurationSeconds
    selectedAnswer := none
    isAnswerCorrect := none
    answeredQuestions := 0
    correctAnswers := 0
    isTimerRunning := true
    quizEnded := false
    answeredQuestionsMap := List.replicate order.length false
    userAnswers := List.replicate order.length none
    visitedQuestionsMap := (List.replicate order.length false).set 0 true
    showReviewScreen := false
    pendingMoves := 0
    finalTally := none }

/-- The session state after the first render and effects. -/
def startState (order : List Question) (settings : Settings) : QuizState :=
  postRender (initState order settings)

/-- The event alphabet of the session: a clock tick, an option click, a
scheduled `moveToNextQuestion` timeout firing, a navigation-panel click, a
review-screen question click, and the review submission click. -/
inductive QuizEvent where
  | tick
  | answer (i : Nat)
  | advance
  | navigate (i : Nat)
  | reviewEdit (i : Nat)
  | submit
deriving Repr, DecidableEq

/-- Dispatch of one event to its handler.  Option clicks and
navigation-panel clicks exist only on the question screen, review-screen
clicks and the submit button only on the review screen (indices offered by
either screen are indices of `questions`); a scheduled advance fires only
while one is pending. -/
def stepEvent : QuizEvent → QuizState → QuizState
  | QuizEvent.tick, s =>
      if s.isTimerRunning = true ∧ 0 < s.quizTimeLeft then
        { s with quizTimeLeft := s.quizTimeLeft - 1 }
      else s
  | QuizEvent.answer i, s =>
      if s.showReviewScreen = true then s else handleAnswerClick i s
  | QuizEvent.advance, s =>
      if 0 < s.pendingMoves then
        moveToNextQuestion { s with pendingMoves := s.pendingMoves - 1 }
      else s
  | QuizEvent.navigate i, s =>
      if s.showReviewScreen = true then s else navigateToQuestion i s
  | QuizEvent.reviewEdit i, s =>
      if s.showReviewScreen = true ∧ i < s.questions.length then
        reviewEditClick i s
      else s
  | QuizEvent.submit, s =>
      if s.showReviewScreen = true then handleSubmitReview s else s

/-- One step of the session: once the quiz has ended the component reports
and is torn down, so no further event reaches a handler; otherwise the
event's handler runs, followed by the render guard and effects. -/
def step (e : QuizEvent) (s : QuizState) : QuizState :=
  if s.quizEnded = true then s else postRender (stepEvent e s)

/-- A whole run: fold a list of events over a state. -/
def runEvents (s : QuizState) (evs : List QuizEvent) : QuizState :=
  evs.foldl (fun t e => step e t) s


/-! ### Concrete sample data, used to exercise the theorems -/

/-- A sample question worth 50 points whose first option is correct. -/
def qA : Question :=
  { id := 1, question := "q one", options := ["a", "b"], correctAnswer := 0,
    points := 50, categories := [1] }

/-- A sample question worth 30 points whose second option is correct. -/
def qB : Question :=
  { id := 2, question := "q two", options := ["c", "d"], correctAnswer := 1,
    points := 30, categories := [2] }

/-- Immediate-feedback settings, lives disabled. -/
def immSettings : Settings :=
  { quizDurationSeconds := 300, timerSeconds := 30, lives := 5,
    livesEnabled := false, reviewModeEnabled := false,
    pointsPerCorrectAnswer := 50, timeBonus := 5 }

/-- Review-mode settings, lives disabled. -/
def revSettings : Settings :=
  { quizDurationSeconds := 300, timerSeconds := 30, lives := 5,
    livesEnabled := false, reviewModeEnabled := true,
    pointsPerCorrectAnswer := 50, timeBonus := 5 }

/-- Review-mode settings with a one-second clock. -/
def shortRevSettings : Settings :=
  { quizDurationSeconds := 1, timerSeconds := 30, lives := 5,
    livesEnabled := false, reviewModeEnabled := true,
    pointsPerCorrectAnswer := 50, timeBonus := 5 }

/-- Immediate-feedback settings with lives enabled and a single life. -/
def oneLifeSettings : Settings :=
  { quizDurationSeconds := 300, timerSeconds := 30, lives := 1,
    livesEnabled := true, reviewModeEnabled := false,
    pointsPerCorrectAnswer := 50, timeBonus := 0 }

/-- A two-question session order. -/
def twoQ : List Question := [qA, qB]

/-- An immediate-feedback session at mount. -/
def immStart : QuizState := startState twoQ immSettings

/-- The immediate-feedback session after one (correct) answer click. -/
def immAfterOne : QuizState := runEvents immStart [QuizEvent.answer 0]

/-- A review-mode session that answered both questions correctly and reached
the review screen. -/
def revScreenAll : QuizState :=
  runEvents (startState twoQ revSettings)
    [QuizEvent.answer 0, QuizEvent.advance, QuizEvent.answer 1,
      QuizEvent.advance]

/-- A review-mode session that reached the review screen with the second
question still unanswered (answer the first, jump to the second, let the
deferred advance find nothing to visit). -/
def revIncomplete : QuizState :=
  runEvents (startState twoQ revSettings)
    [QuizEvent.answer 0, QuizEvent.navigate 1, QuizEvent.advance]

/-- A review-mode session at mount with one second on the clock. -/
def revShortStart : QuizState := startState twoQ shortRevSettings

/-- The one-second review session after recording one answer (no tick has
occurred yet). -/
def revShortAns : QuizState := runEvents revShortStart [QuizEvent.answer 0]

/-- A mid-session snapshot sitting on the second question with only the
second question answered, used to exercise the wrap-around scan. -/
def c2Wrap : QuizState :=
  { questions := twoQ, settings := immSettings, isReviewMode := false,
    currentQuestionIndex := 1, lives := 5, score := 30, quizTimeLeft := 100,
    selectedAnswer := none, isAnswerCorrect := none, answeredQuestions := 1,
    correctAnswers := 1, isTimerRunning := true, quizEnded := false,
    answeredQuestionsMap := [false, true], userAnswers := [none, some 1],
    visitedQuestionsMap := [true, true], showReviewScreen := false,
    pendingMoves := 0, finalTally := none }

/-- A mid-session snapshot on the last unanswered question: every other
question is answered, so the advance has nowhere to go. -/
def c2Last : QuizState :=
  { c2Wrap with
    answeredQuestionsMap := [true, false],
    userAnswers := [some 0, none] }

/-- A snapshot right after an incorrect answer spent the last life (lives
at zero, handler result before the render pass). -/
def c2Dead : QuizState :=
  { c2Wrap with
    settings := oneLifeSettings, currentQuestionIndex := 0,
    lives := 0, answeredQuestionsMap := [true, false],
    userAnswers := [some 1, none], selectedAnswer := some 1,
    pendingMoves := 1 }

/-! ### List-level helper lemmas -/

theorem getD_nil {α : Type} (i : Nat) (d : α) : ([] : List α).getD i d = d :=
  rfl

theorem getD_cons_zero {α : Type} (a : α) (t : List α) (d : α) :
    (a :: t).getD 0 d = a := rfl

theorem getD_cons_succ {α : Type} (a : α) (t : List α) (i : Nat) (d : α) :
    (a :: t).getD (i + 1) d = t.getD i d := rfl

theorem getD_set_eq {α : Type} (l : List α) (k : Nat) (v d : α)
    (h : k < l.length) : (l.set k v).getD k d = v := by
  induction l generalizing k with
  | nil => simp at h
  | cons a t ih =>
    cases k with
    | zero => rfl
    | succ n =>
      have hn : n < t.length := Nat.lt_of_succ_lt_succ (by simpa using h)
      show (t.set n v).getD n d = v
      exact ih n hn

theorem getD_set_ne {α : Type} (l : List α) (k j : Nat) (v d : α)
    (h : j ≠ k) : (l.set k v).getD j d = l.getD j d := by
  induction l generalizing k j with
  | nil => rfl
  | cons a t ih =>
    cases k with
    | zero =>
      cases j with
      | zero => exact absurd rfl h
      | succ m => rfl
    | succ n =>
      cases j with
      | zero => rfl
      | succ m =>
        have hne : m ≠ n := fun hc => h (by simp [hc])
        show (t.set n v).getD m d = t.getD m d
        exact ih n m hne

theorem getD_replicate {α : Type} (n i : Nat) (a : α) :
    (List.replicate n a).getD i a = a := by
  induction n generalizing i with
  | zero => rfl
  | succ m ih =>
    cases i with
    | zero => rfl
    | succ j => exact ih j

theorem countTrue_le (m : List Bool) : countTrue m ≤ m.length := by
  induction m with
  | nil => exact Nat.le_refl 0
  | cons b t ih =>
    cases b <;> simp only [countTrue, List.length_cons] <;> omega

theorem countTrue_lt (m : List Bool) (j : Nat) (hj : j < m.length)
    (h : m.getD j false = false) : countTrue m < m.length := by
  induction m generalizing j with
  | nil => simp at hj
  | cons b t ih =>
    cases j with
    | zero =>
      have hb : b = false := h
      subst hb
      have := countTrue_le t
      simp only [countTrue, List.length_cons]
      omega
    | succ k =>
      have hk : k < t.length := Nat.lt_of_succ_lt_succ (by simpa using hj)
      have := ih k hk h
      cases b <;> simp only [countTrue, List.length_cons] <;> omega

theorem findAux_some (m : List Bool) (lo n j : Nat)
    (h : findUnansweredAux m lo n = some j) :
    lo ≤ j ∧ j < lo + n ∧ m.getD j false = false := by
  induction n generalizing lo with
  | zero => simp [findUnansweredAux] at h
  | succ k ih =>
    rw [findUnansweredAux] at h
    by_cases hm : m.getD lo false = false
    · rw [if_pos hm] at h
      have hj : lo = j := Option.some.inj h
      subst hj
      exact ⟨Nat.le_refl _, by omega, hm⟩
    · rw [if_neg hm] at h
      have := ih (lo + 1) h
      exact ⟨by omega, by omega, this.2.2⟩

theorem findAux_eq_some (m : List Bool) (lo n j : Nat)
    (h1 : lo ≤ j) (h2 : j < lo + n) (h3 : m.getD j false = false)
    (h4 : ∀ k, lo ≤ k → k < j → m.getD k false = true) :
    findUnansweredAux m lo n = some j := by
  induction n generalizing lo with
  | zero => omega
  | succ k ih =>
    rw [findUnansweredAux]
    by_cases hm : m.getD lo false = false
    · rw [if_pos hm]
      have hjlo : j = lo := by
        by_contra hne
        have ht : m.getD lo false = true := h4 lo (Nat.le_refl _) (by omega)
        rw [ht] at hm
        exact Bool.noConfusion hm
      rw [hjlo]
    · rw [if_neg hm]
      have hlo : lo ≠ j := fun hc => hm (hc ▸ h3)
      exact ih (lo + 1) (by omega) (by omega)
        (fun x hx1 hx2 => h4 x (by omega) hx2)

theorem findAux_eq_none (m : List Bool) (lo n : Nat)
    (h : ∀ k, lo ≤ k → k < lo + n → m.getD k false = true) :
    findUnansweredAux m lo n = none := by
  induction n generalizing lo with
  | zero => rfl
  | succ k ih =>
    rw [findUnansweredAux]
    have hm : m.getD lo false = true := h lo (Nat.le_refl _) (by omega)
    have hm' : ¬ (m.getD lo false = false) := by
      rw [hm]
      exact fun hc => Bool.noConfusion hc
    rw [if_neg hm']
    exact ih (lo + 1) (fun x hx1 hx2 => h x (by omega) (by omega))

theorem answeredCnt_le (ua : List (Option Nat)) :
    answeredCnt ua ≤ ua.length := by
  induction ua with
  | nil => exact Nat.le_refl 0
  | cons a t ih =>
    cases a <;> simp only [answeredCnt, List.length_cons] <;> omega

theorem answeredCnt_lt_of_none (ua : List (Option Nat)) (j : Nat)
    (hj : j < ua.length) (h : ua.getD j none = none) :
    answeredCnt ua < ua.length := by
  induction ua generalizing j with
  | nil => simp at hj
  | cons a t ih =>
    cases j with
    | zero =>
      have ha : a = none := h
      subst ha
      have := answeredCnt_le t
      simp only [answeredCnt, List.length_cons]
      omega
    | succ k =>
      have hk : k < t.length := Nat.lt_of_succ_lt_succ (by simpa using hj)
      have := ih k hk h
      cases a <;> simp only [answeredCnt, List.length_cons] <;> omega

theorem answeredCnt_eq_of_all (ua : List (Option Nat))
    (h : ∀ i, i < ua.length → (ua.getD i none).isSome = true) :
    answeredCnt ua = ua.length := by
  induction ua with
  | nil => rfl
  | cons a t ih =>
    have ha : a.isSome = true := h 0 (by simp)
    cases a with
    | none => simp at ha
    | some x =>
      have ht := ih (fun i hi => h (i + 1) (by simpa using Nat.succ_lt_succ hi))
      simp only [answeredCnt, List.length_cons, ht]

theorem exists_none_of_lt (ua : List (Option Nat))
    (h : answeredCnt ua < ua.length) :
    ∃ i, i < ua.length ∧ ua.getD i none = none := by
  induction ua with
  | nil => simp at h
  | cons a t ih =>
    cases a with
    | none => exact ⟨0, by simp, rfl⟩
    | some x =>
      have ht : answeredCnt t < t.length := by
        simp only [answeredCnt, List.length_cons] at h
        omega
      obtain ⟨i, hi, hv⟩ := ih ht
      exact ⟨i + 1, by simpa using Nat.succ_lt_succ hi, hv⟩

theorem answeredCnt_split (qs : List Question) (ua : List (Option Nat))
    (hlen : ua.length = qs.length) :
    answeredCnt ua = correctCnt qs ua + incorrectCnt qs ua := by
  induction qs generalizing ua with
  | nil =>
    cases ua with
    | nil => rfl
    | cons a t => simp at hlen
  | cons q qs ih =>
    cases ua with
    | nil => simp at hlen
    | cons a t =>
      have ht : t.length = qs.length := by simpa using hlen
      have := ih t ht
      cases a with
      | none => simpa [answeredCnt, correctCnt, incorrectCnt] using this
      | some x =>
        by_cases hc : x = q.correctAnswer <;>
          simp only [answeredCnt, correctCnt, incorrectCnt, if_pos, if_neg,
            hc, if_true, if_false, this] <;> omega

theorem scoreOf_set (qs : List Question) (ua : List (Option Nat)) (k i : Nat)
    (hlen : ua.length = qs.length) (hk : k < qs.length)
    (h0 : ua.getD k none = none) :
    scoreOf qs (ua.set k (some i)) = scoreOf qs ua +
      (if i = (qs.getD k defaultQuestion).correctAnswer
       then (qs.getD k defaultQuestion).points else 0) := by
  induction qs generalizing ua k with
  | nil => simp at hk
  | cons q qs ih =>
    cases ua with
    | nil => simp at hlen
    | cons a t =>
      have ht : t.length = qs.length := by simpa using hlen
      cases k with
      | zero =>
        have ha : a = none := h0
        subst ha
        show scoreOf (q :: qs) (some i :: t) = scoreOf (q :: qs) (none :: t) +
          (if i = q.correctAnswer then q.points else 0)
        simp only [scoreOf]
        omega
      | succ n =>
        have hn : n < qs.length := Nat.lt_of_succ_lt_succ (by simpa using hk)
        have hrec := ih t n ht hn h0
        show scoreOf (q :: qs) (a :: t.set n (some i)) =
          scoreOf (q :: qs) (a :: t) +
            (if i = (qs.getD n defaultQuestion).correctAnswer
             then (qs.getD n defaultQuestion).points else 0)
        cases a <;> simp only [scoreOf, hrec] <;> omega

theorem correctCnt_set (qs : List Question) (ua : List (Option Nat)) (k i : Nat)
    (hlen : ua.length = qs.length) (hk : k < qs.length)
    (h0 : ua.getD k none = none) :
    correctCnt qs (ua.set k (some i)) = correctCnt qs ua +
      (if i = (qs.getD k defaultQuestion).correctAnswer then 1 else 0) := by
  induction qs generalizing ua k with
  | nil => simp at hk
  | cons q qs ih =>
    cases ua with
    | nil => simp at hlen
    | cons a t =>
      have ht : t.length = qs.length := by simpa using hlen
      cases k with
      | zero =>
        have ha : a = none := h0
        subst ha
        show correctCnt (q :: qs) (some i :: t) =
          correctCnt (q :: qs) (none :: t) +
            (if i = q.correctAnswer then 1 else 0)
        simp only [correctCnt]
        omega
      | succ n =>
        have hn : n < qs.length := Nat.lt_of_succ_lt_succ (by simpa using hk)
        have hrec := ih t n ht hn h0
        show correctCnt (q :: qs) (a :: t.set n (some i)) =
          correctCnt (q :: qs) (a :: t) +
            (if i = (qs.getD n defaultQuestion).correctAnswer then 1 else 0)
        cases a <;> simp only [correctCnt, hrec] <;> omega

theorem answeredCnt_set (ua : List (Option Nat)) (k i : Nat)
    (hk : k < ua.length) (h0 : ua.getD k none = none) :
    answeredCnt (ua.set k (some i)) = answeredCnt ua + 1 := by
  induction ua generalizing k with
  | nil => simp at hk
  | cons a t ih =>
    cases k with
    | zero =>
      have ha : a = none := h0
      subst ha
      show answeredCnt (some i :: t) = answeredCnt (none :: t) + 1
      simp [answeredCnt]
    | succ n =>
      have hn : n < t.length := Nat.lt_of_succ_lt_succ (by simpa using hk)
      have hrec := ih n hn h0
      show answeredCnt (a :: t.set n (some i)) = answeredCnt (a :: t) + 1
      cases a <;> simp only [answeredCnt, hrec] <;> omega

theorem scoreOf_all_correct (qs : List Question) (ua : List (Option Nat))
    (hlen : ua.length = qs.length)
    (h : ∀ i, i < qs.length →
      ua.getD i none = some ((qs.getD i defaultQuestion).correctAnswer)) :
    scoreOf qs ua = sumPoints qs ∧ correctCnt qs ua = qs.length := by
  induction qs generalizing ua with
  | nil =>
    cases ua with
    | nil => exact ⟨rfl, rfl⟩
    | cons a t => simp at hlen
  | cons q qs ih =>
    cases ua with
    | nil => simp at hlen
    | cons a t =>
      have ht : t.length = qs.length := by simpa using hlen
      have ha : a = some q.correctAnswer := h 0 (by simp)
      subst ha
      have hrec := ih t ht (fun i hi =>
        h (i + 1) (by simpa using Nat.succ_lt_succ hi))
      refine ⟨?_, ?_⟩
      · show (if q.correctAnswer = q.correctAnswer then q.points else 0) +
          scoreOf qs t = q.points + sumPoints qs
        rw [if_pos rfl, hrec.1]
      · show (if q.correctAnswer = q.correctAnswer then 1 else 0) +
          correctCnt qs t = (q :: qs).length
        rw [if_pos rfl, hrec.2]
        simp [Nat.add_comm]

theorem scoreOf_replicate (qs : List Question) (n : Nat) :
    scoreOf qs (List.replicate n none) = 0 := by
  induction qs generalizing n with
  | nil => cases n <;> rfl
  | cons q qs ih =>
    cases n with
    | zero => rfl
    | succ m => exact ih m

theorem correctCnt_replicate (qs : List Question) (n : Nat) :
    correctCnt qs (List.replicate n none) = 0 := by
  induction qs generalizing n with
  | nil => cases n <;> rfl
  | cons q qs ih =>
    cases n with
    | zero => rfl
    | succ m => exact ih m

theorem answeredCnt_replicate (n : Nat) :
    answeredCnt (List.replicate n (none : Option Nat)) = 0 := by
  induction n with
  | zero => rfl
  | succ m ih => exact ih

/-! ### The reachable-state invariant

`CoreInv` collects the facts that hold in every reachable session state and
that the claims lean on: the mode flag is fixed from settings, the pointer is
in range, the per-question maps have one slot per question, a stopped timer
or an exhausted clock means the quiz has ended, nothing is reported while
the quiz is live, and — in immediate mode — the recorded answers, the
answered map and the running totals agree, the review screen never shows,
and the current question is unanswered whenever no selection is displayed.
In review mode the running totals stay at zero until submission. -/

structure CoreInv (s : QuizState) : Prop where
  hmode : s.isReviewMode = s.settings.reviewModeEnabled
  hlen : 0 < s.questions.length
  hansLen : s.answeredQuestionsMap.length = s.questions.length
  huaLen : s.userAnswers.length = s.questions.length
  hvisLen : s.visitedQuestionsMap.length = s.questions.length
  hcur : s.currentQuestionIndex < s.questions.length
  hrun : s.isTimerRunning = false → s.quizEnded = true
  htally : s.quizEnded = false → s.finalTally = none
  himmRs : s.isReviewMode = false → s.showReviewScreen = false
  himmUa : s.isReviewMode = false → ∀ i,
    (s.userAnswers.getD i none).isSome = s.answeredQuestionsMap.getD i false
  himmScore : s.isReviewMode = false →
    s.score = scoreOf s.questions s.userAnswers
  himmCorrect : s.isReviewMode = false →
    s.correctAnswers = correctCnt s.questions s.userAnswers
  himmAnswered : s.isReviewMode = false →
    s.answeredQuestions = answeredCnt s.userAnswers
  himmSel : s.isReviewMode = false → s.quizEnded = false →
    s.answeredQuestionsMap.getD s.currentQuestionIndex false = true →
    s.selectedAnswer ≠ none
  hrevZero : s.isReviewMode = true → s.quizEnded = false →
    s.score = 0 ∧ s.answeredQuestions = 0 ∧ s.correctAnswers = 0

/-- The invariant of states as observed between events (after the render and
effects have run): `CoreInv` plus the two facts the render/effect pass
enforces — an exhausted clock has stopped and ended the session, and in a
live session lives are not exhausted. -/
def Inv (s : QuizState) : Prop :=
  CoreInv s
    ∧ (s.quizTimeLeft = 0 → s.isTimerRunning = false ∧ s.quizEnded = true)
    ∧ (s.quizEnded = false →
        ¬(s.settings.livesEnabled = true ∧ s.lives ≤ 0))

/-- The invariant of states as produced by an event handler, before the
render and effects run: `CoreInv` plus the fact that exhausted lives (which
only an immediate-mode answer can produce) occur only off the review screen,
so the render guard will see them. -/
def PreInv (s : QuizState) : Prop :=
  CoreInv s
    ∧ (s.quizEnded = false → s.settings.livesEnabled = true → s.lives ≤ 0 →
        s.showReviewScreen = false)

/-! ### Rewriting kit for `postRender` -/

theorem applyEndGuard_shape (s : QuizState) :
    applyEndGuard s = s ∨ applyEndGuard s = { s with quizEnded := true } := by
  unfold applyEndGuard
  split
  · right; rfl
  · left; rfl

theorem applyTimeUp_shape (s : QuizState) :
    applyTimeUp s = s
      ∨ applyTimeUp s = { s with isTimerRunning := false, quizEnded := true } := by
  unfold applyTimeUp
  split
  · right; rfl
  · left; rfl

theorem applyEndTally_shape (s : QuizState) :
    applyEndTally s = s
      ∨ applyEndTally s = { s with finalTally := some (
          { score := s.score, answered := s.answeredQuestions,
            correct := s.correctAnswers, reviewPayload := none } : Tally) } := by
  unfold applyEndTally
  split
  · right; rfl
  · left; rfl

/-- The render/effect pass can only flip `quizEnded` to `true`, stop the
timer, and write the tally: every other field is untouched. -/
theorem postRender_facts (s : QuizState) :
    (postRender s).questions = s.questions ∧
    (postRender s).settings = s.settings ∧
    (postRender s).isReviewMode = s.isReviewMode ∧
    (postRender s).currentQuestionIndex = s.currentQuestionIndex ∧
    (postRender s).lives = s.lives ∧
    (postRender s).score = s.score ∧
    (postRender s).quizTimeLeft = s.quizTimeLeft ∧
    (postRender s).selectedAnswer = s.selectedAnswer ∧
    (postRender s).isAnswerCorrect = s.isAnswerCorrect ∧
    (postRender s).answeredQuestions = s.answeredQuestions ∧
    (postRender s).correctAnswers = s.correctAnswers ∧
    (postRender s).answeredQuestionsMap = s.answeredQuestionsMap ∧
    (postRender s).userAnswers = s.userAnswers ∧
    (postRender s).visitedQuestionsMap = s.visitedQuestionsMap ∧
    (postRender s).showReviewScreen = s.showReviewScreen ∧
    (postRender s).pendingMoves = s.pendingMoves := by
  rcases applyEndTally_shape (applyTimeUp (applyEndGuard s)) with h3 | h3 <;>
    rcases applyTimeUp_shape (applyEndGuard s) with h2 | h2 <;>
      rcases applyEndGuard_shape s with h1 | h1 <;>
        rw [postRender, h3] <;> rw [h2] <;> rw [h1] <;>
          exact ⟨rfl, rfl, rfl, rfl, rfl, rfl, rfl, rfl, rfl, rfl, rfl, rfl,
            rfl, rfl, rfl, rfl⟩

theorem applyEndGuard_id (s : QuizState)
    (h : ¬(s.questions.length ≤ s.currentQuestionIndex
        ∨ (s.settings.livesEnabled = true ∧ s.lives ≤ 0))) :
    applyEndGuard s = s := by
  unfold applyEndGuard
  rw [if_neg]
  rintro ⟨-, -, hc⟩
  exact h hc

theorem applyEndGuard_fire (s : QuizState) (h1 : s.quizEnded = false)
    (h2 : s.showReviewScreen = false)
    (h3 : s.questions.length ≤ s.currentQuestionIndex
        ∨ (s.settings.livesEnabled = true ∧ s.lives ≤ 0)) :
    applyEndGuard s = { s with quizEnded := true } := by
  unfold applyEndGuard
  rw [if_pos ⟨h1, h2, h3⟩]

theorem applyTimeUp_id (s : QuizState) (h : s.quizTimeLeft ≠ 0) :
    applyTimeUp s = s := by
  unfold applyTimeUp
  rw [if_neg h]

theorem applyTimeUp_fire (s : QuizState) (h : s.quizTimeLeft = 0) :
    applyTimeUp s = { s with isTimerRunning := false, quizEnded := true } := by
  unfold applyTimeUp
  rw [if_pos h]

theorem applyEndTally_id_of_live (s : QuizState) (h : s.quizEnded = false) :
    applyEndTally s = s := by
  unfold applyEndTally
  rw [if_neg]
  rintro ⟨hc, -⟩
  rw [h] at hc
  exact Bool.noConfusion hc

theorem applyEndTally_id_of_reported (s : QuizState) (h : s.finalTally ≠ none) :
    applyEndTally s = s := by
  unfold applyEndTally
  rw [if_neg]
  rintro ⟨-, hc⟩
  exact h hc

theorem applyEndTally_fire (s : QuizState) (h1 : s.quizEnded = true)
    (h2 : s.finalTally = none) :
    applyEndTally s = { s with finalTally := some (
      { score := s.score, answered := s.answeredQuestions,
        correct := s.correctAnswers, reviewPayload := none } : Tally) } := by
  unfold applyEndTally
  rw [if_pos ⟨h1, h2⟩]

theorem applyEndTally_quizEnded (s : QuizState) :
    (applyEndTally s).quizEnded = s.quizEnded := by
  rcases applyEndTally_shape s with h | h <;> rw [h]

/-- When the render/effect pass finds nothing to do — pointer in range, lives
not exhausted, clock not at zero, quiz still live — it changes nothing. -/
theorem postRender_id (s : QuizState)
    (h1 : ¬(s.questions.length ≤ s.currentQuestionIndex
        ∨ (s.settings.livesEnabled = true ∧ s.lives ≤ 0)))
    (h2 : s.quizTimeLeft ≠ 0) (h3 : s.quizEnded = false) :
    postRender s = s := by
  rw [postRender, applyEndGuard_id s h1, applyTimeUp_id s h2,
    applyEndTally_id_of_live s h3]

/-! ### Rewriting kit for the event handlers -/

theorem hac_rejected (i : Nat) (s : QuizState)
    (h : s.selectedAnswer ≠ none ∨ s.isTimerRunning = false) :
    handleAnswerClick i s = s := by
  unfold handleAnswerClick
  rw [if_pos h]

theorem hac_not_rejected (s : QuizState) (hsel : s.selectedAnswer = none)
    (hrun : s.isTimerRunning = true) :
    ¬(s.selectedAnswer ≠ none ∨ s.isTimerRunning = false) := by
  rintro (hc | hc)
  · exact hc hsel
  · rw [hrun] at hc
    exact Bool.noConfusion hc

theorem hac_review (i : Nat) (s : QuizState) (hsel : s.selectedAnswer = none)
    (hrun : s.isTimerRunning = true) (hrm : s.isReviewMode = true) :
    handleAnswerClick i s = { s with
      userAnswers := s.userAnswers.set s.currentQuestionIndex (some i),
      answeredQuestionsMap :=
        s.answeredQuestionsMap.set s.currentQuestionIndex true,
      selectedAnswer := some i,
      pendingMoves := s.pendingMoves + 1 } := by
  unfold handleAnswerClick
  rw [if_neg (hac_not_rejected s hsel hrun)]
  dsimp only
  rw [if_pos hrm]

theorem hac_imm_correct (i : Nat) (s : QuizState)
    (hsel : s.selectedAnswer = none) (hrun : s.isTimerRunning = true)
    (hrm : s.isReviewMode = false)
    (hc : i = (s.questions.getD s.currentQuestionIndex
      defaultQuestion).correctAnswer) :
    handleAnswerClick i s = { s with
      userAnswers := s.userAnswers.set s.currentQuestionIndex (some i),
      answeredQuestionsMap :=
        s.answeredQuestionsMap.set s.currentQuestionIndex true,
      selectedAnswer := some i,
      isAnswerCorrect := some true,
      score := s.score + (s.questions.getD s.currentQuestionIndex
        defaultQuestion).points,
      correctAnswers := s.correctAnswers + 1,
      answeredQuestions := s.answeredQuestions + 1,
      pendingMoves := s.pendingMoves + 1 } := by
  unfold handleAnswerClick
  rw [if_neg (hac_not_rejected s hsel hrun)]
  dsimp only
  rw [if_neg (by rw [hrm]; exact Bool.noConfusion), if_pos hc]

theorem hac_imm_wrong_lives (i : Nat) (s : QuizState)
    (hsel : s.selectedAnswer = none) (hrun : s.isTimerRunning = true)
    (hrm : s.isReviewMode = false)
    (hc : ¬ i = (s.questions.getD s.currentQuestionIndex
      defaultQuestion).correctAnswer)
    (hl : s.settings.livesEnabled = true) :
    handleAnswerClick i s = { s with
      userAnswers := s.userAnswers.set s.currentQuestionIndex (some i),
      answeredQuestionsMap :=
        s.answeredQuestionsMap.set s.currentQuestionIndex true,
      selectedAnswer := some i,
      isAnswerCorrect := some false,
      lives := s.lives - 1,
      answeredQuestions := s.answeredQuestions + 1,
      pendingMoves := s.pendingMoves + 1 } := by
  unfold handleAnswerClick
  rw [if_neg (hac_not_rejected s hsel hrun)]
  dsimp only
  rw [if_neg (by rw [hrm]; exact Bool.noConfusion), if_neg hc, if_pos hl]

theorem hac_imm_wrong_nolives (i : Nat) (s : QuizState)
    (hsel : s.selectedAnswer = none) (hrun : s.isTimerRunning = true)
    (hrm : s.isReviewMode = false)
    (hc : ¬ i = (s.questions.getD s.currentQuestionIndex
      defaultQuestion).correctAnswer)
    (hl : ¬ s.settings.livesEnabled = true) :
    handleAnswerClick i s = { s with
      userAnswers := s.userAnswers.set s.currentQuestionIndex (some i),
      answeredQuestionsMap :=
        s.answeredQuestionsMap.set s.currentQuestionIndex true,
      selectedAnswer := some i,
      isAnswerCorrect := some false,
      answeredQuestions := s.answeredQuestions + 1,
      pendingMoves := s.pendingMoves + 1 } := by
  unfold handleAnswerClick
  rw [if_neg (hac_not_rejected s hsel hrun)]
  dsimp only
  rw [if_neg (by rw [hrm]; exact Bool.noConfusion), if_neg hc, if_neg hl]

theorem mtn_all_imm (s : QuizState)
    (h : s.questions.length ≤ countTrue s.answeredQuestionsMap)
    (hrm : s.isReviewMode = false) :
    moveToNextQuestion s = { s with
      selectedAnswer := none,
      isAnswerCorrect := none, quizEnded := true } := by
  unfold moveToNextQuestion
  dsimp only
  rw [if_pos h, if_neg (by rw [hrm]; exact Bool.noConfusion)]

theorem mtn_all_rev (s : QuizState)
    (h : s.questions.length ≤ countTrue s.answeredQuestionsMap)
    (hrm : s.isReviewMode = true) :
    moveToNextQuestion s = { s with
      selectedAnswer := none,
      isAnswerCorrect := none, showReviewScreen := true } := by
  unfold moveToNextQuestion
  dsimp only
  rw [if_pos h, if_pos hrm]

theorem mtn_lives (s : QuizState)
    (h1 : ¬ s.questions.length ≤ countTrue s.answeredQuestionsMap)
    (h2 : s.settings.livesEnabled = true ∧ s.lives ≤ 0) :
    moveToNextQuestion s = { s with
      selectedAnswer := none,
      isAnswerCorrect := none, quizEnded := true } := by
  unfold moveToNextQuestion
  dsimp only
  rw [if_neg h1, if_pos h2]

theorem mtn_single_imm (s : QuizState)
    (h1 : ¬ s.questions.length ≤ countTrue s.answeredQuestionsMap)
    (h2 : ¬(s.settings.livesEnabled = true ∧ s.lives ≤ 0))
    (h3 : s.questions.length = 1) (hrm : s.isReviewMode = false) :
    moveToNextQuestion s = { s with
      selectedAnswer := none,
      isAnswerCorrect := none, quizEnded := true } := by
  unfold moveToNextQuestion
  dsimp only
  rw [if_neg h1, if_neg h2, if_pos h3,
    if_neg (by rw [hrm]; exact Bool.noConfusion)]

theorem mtn_single_rev (s : QuizState)
    (h1 : ¬ s.questions.length ≤ countTrue s.answeredQuestionsMap)
    (h2 : ¬(s.settings.livesEnabled = true ∧ s.lives ≤ 0))
    (h3 : s.questions.length = 1) (hrm : s.isReviewMode = true) :
    moveToNextQuestion s = { s with
      selectedAnswer := none,
      isAnswerCorrect := none, showReviewScreen := true } := by
  unfold moveToNextQuestion
  dsimp only
  rw [if_neg h1, if_neg h2, if_pos h3, if_pos hrm]

theorem findNextIndex_reset (s : QuizState) :
    findNextIndex { s with selectedAnswer := none, isAnswerCorrect := none }
      = findNextIndex s := rfl

theorem mtn_found (s : QuizState) (j : Nat)
    (h1 : ¬ s.questions.length ≤ countTrue s.answeredQuestionsMap)
    (h2 : ¬(s.settings.livesEnabled = true ∧ s.lives ≤ 0))
    (h3 : ¬ s.questions.length = 1)
    (hf : findNextIndex s = some j) :
    moveToNextQuestion s = { s with
      selectedAnswer := none,
      isAnswerCorrect := none, currentQuestionIndex := j,
      visitedQuestionsMap := s.visitedQuestionsMap.set j true } := by
  unfold moveToNextQuestion
  dsimp only
  rw [if_neg h1, if_neg h2, if_neg h3, findNextIndex_reset, hf]

theorem mtn_none_imm (s : QuizState)
    (h1 : ¬ s.questions.length ≤ countTrue s.answeredQuestionsMap)
    (h2 : ¬(s.settings.livesEnabled = true ∧ s.lives ≤ 0))
    (h3 : ¬ s.questions.length = 1)
    (hf : findNextIndex s = none) (hrm : s.isReviewMode = false) :
    moveToNextQuestion s = { s with
      selectedAnswer := none,
      isAnswerCorrect := none, quizEnded := true } := by
  unfold moveToNextQuestion
  dsimp only
  rw [if_neg h1, if_neg h2, if_neg h3, findNextIndex_reset, hf]
  dsimp only
  rw [if_neg (by rw [hrm]; exact Bool.noConfusion)]

theorem mtn_none_rev (s : QuizState)
    (h1 : ¬ s.questions.length ≤ countTrue s.answeredQuestionsMap)
    (h2 : ¬(s.settings.livesEnabled = true ∧ s.lives ≤ 0))
    (h3 : ¬ s.questions.length = 1)
    (hf : findNextIndex s = none) (hrm : s.isReviewMode = true) :
    moveToNextQuestion s = { s with
      selectedAnswer := none,
      isAnswerCorrect := none, showReviewScreen := true } := by
  unfold moveToNextQuestion
  dsimp only
  rw [if_neg h1, if_neg h2, if_neg h3, findNextIndex_reset, hf]
  dsimp only
  rw [if_pos hrm]

theorem nav_rejected (i : Nat) (s : QuizState)
    (h : i = s.currentQuestionIndex
      ∨ (s.isReviewMode = false
          ∧ s.answeredQuestionsMap.getD i false = true)
      ∨ s.isTimerRunning = false) :
    navigateToQuestion i s = s := by
  unfold navigateToQuestion
  rw [if_pos h]

theorem nav_accepted (i : Nat) (s : QuizState)
    (h : ¬(i = s.currentQuestionIndex
      ∨ (s.isReviewMode = false
          ∧ s.answeredQuestionsMap.getD i false = true)
      ∨ s.isTimerRunning = false))
    (hr : i < s.questions.length) :
    navigateToQuestion i s = { s with
      selectedAnswer := none,
      isAnswerCorrect := none, currentQuestionIndex := i,
      visitedQuestionsMap := s.visitedQuestionsMap.set i true } := by
  unfold navigateToQuestion
  rw [if_neg h, if_pos hr]

theorem nav_out_of_range (i : Nat) (s : QuizState)
    (h : ¬(i = s.currentQuestionIndex
      ∨ (s.isReviewMode = false
          ∧ s.answeredQuestionsMap.getD i false = true)
      ∨ s.isTimerRunning = false))
    (hr : ¬ i < s.questions.length) :
    navigateToQuestion i s = s := by
  unfold navigateToQuestion
  rw [if_neg h, if_neg hr]

theorem hsr_rejected (s : QuizState)
    (h : answeredCnt s.userAnswers < s.questions.length) :
    handleSubmitReview s = s := by
  unfold handleSubmitReview
  rw [if_pos h]

theorem hsr_accepted (s : QuizState)
    (h : ¬ answeredCnt s.userAnswers < s.questions.length) :
    handleSubmitReview s = { s with
      score := scoreOf s.questions s.userAnswers,
      correctAnswers := correctCnt s.questions s.userAnswers,
      answeredQuestions := answeredCnt s.userAnswers,
      quizEnded := true,
      finalTally := some (
        { score := scoreOf s.questions s.userAnswers,
          answered := answeredCnt s.userAnswers,
          correct := correctCnt s.questions s.userAnswers,
          reviewPayload := some (
            { questions := s.questions,
              userAnswers := s.userAnswers } : ReviewData) } : Tally) } := by
  unfold handleSubmitReview
  rw [if_neg h]

/-! ### Preservation of the invariant -/

theorem applyTimeUp_ended_mono (s : QuizState) (h : s.quizEnded = true) :
    (applyTimeUp s).quizEnded = true := by
  rcases applyTimeUp_shape s with hs | hs <;> rw [hs] <;> exact h

theorem applyEndGuard_time (s : QuizState) :
    (applyEndGuard s).quizTimeLeft = s.quizTimeLeft := by
  rcases applyEndGuard_shape s with hs | hs <;> rw [hs]

/-- When the clock reads zero, the render/effect pass stops the timer and
ends the quiz, whatever else is going on. -/
theorem postRender_time_up (s : QuizState) (h : s.quizTimeLeft = 0) :
    (postRender s).isTimerRunning = false ∧ (postRender s).quizEnded = true := by
  have ht : (applyEndGuard s).quizTimeLeft = 0 := by
    rw [applyEndGuard_time]; exact h
  rw [postRender, applyTimeUp_fire _ ht]
  rcases applyEndTally_shape
      ({ applyEndGuard s with isTimerRunning := false, quizEnded := true }) with
    hs | hs <;> rw [hs] <;> exact ⟨rfl, rfl⟩

/-- A render/effect pass that leaves the quiz live leaves the whole state
unchanged. -/
theorem postRender_self_of_live (s : QuizState)
    (h : (postRender s).quizEnded = false) : postRender s = s ∧ s.quizEnded = false := by
  by_cases ht : s.quizTimeLeft = 0
  · have := (postRender_time_up s ht).2
    rw [this] at h
    exact Bool.noConfusion h
  · have ht1 : (applyEndGuard s).quizTimeLeft ≠ 0 := by
      rw [applyEndGuard_time]; exact ht
    have hpr : postRender s = applyEndTally (applyEndGuard s) := by
      rw [postRender, applyTimeUp_id _ ht1]
    rcases applyEndGuard_shape s with h1 | h1
    · rw [hpr, h1] at h ⊢
      rw [applyEndTally_quizEnded] at h
      rw [applyEndTally_id_of_live s h]
      exact ⟨rfl, h⟩
    · rw [hpr, h1, applyEndTally_quizEnded] at h
      exact Bool.noConfusion h

/-- Transport of `CoreInv` along a state whose relevant fields agree. -/
theorem coreInv_transport (s t : QuizState)
    (h1 : t.isReviewMode = s.isReviewMode)
    (h2 : t.settings = s.settings)
    (h3 : t.questions = s.questions)
    (h4 : t.answeredQuestionsMap = s.answeredQuestionsMap)
    (h5 : t.userAnswers = s.userAnswers)
    (h6 : t.visitedQuestionsMap = s.visitedQuestionsMap)
    (h7 : t.currentQuestionIndex = s.currentQuestionIndex)
    (h8 : t.isTimerRunning = s.isTimerRunning)
    (h9 : t.quizEnded = s.quizEnded)
    (h10 : t.finalTally = s.finalTally)
    (h11 : t.showReviewScreen = s.showReviewScreen)
    (h12 : t.selectedAnswer = s.selectedAnswer)
    (h13 : t.score = s.score)
    (h14 : t.correctAnswers = s.correctAnswers)
    (h15 : t.answeredQuestions = s.answeredQuestions)
    (hc : CoreInv s) : CoreInv t := by
  refine ⟨?_, ?_, ?_, ?_, ?_, ?_, ?_, ?_, ?_, ?_, ?_, ?_, ?_, ?_, ?_⟩
  · rw [h1, h2]; exact hc.hmode
  · rw [h3]; exact hc.hlen
  · rw [h4, h3]; exact hc.hansLen
  · rw [h5, h3]; exact hc.huaLen
  · rw [h6, h3]; exact hc.hvisLen
  · rw [h7, h3]; exact hc.hcur
  · rw [h8, h9]; exact hc.hrun
  · rw [h9, h10]; exact hc.htally
  · rw [h1, h11]; exact hc.himmRs
  · rw [h1, h5, h4]; exact hc.himmUa
  · rw [h1, h13, h3, h5]; exact hc.himmScore
  · rw [h1, h14, h3, h5]; exact hc.himmCorrect
  · rw [h1, h15, h5]; exact hc.himmAnswered
  · rw [h1, h9, h4, h7, h12]; exact hc.himmSel
  · rw [h1, h9, h13, h15, h14]; exact hc.hrevZero

/-- The render/effect pass turns the handler-level invariant into the
between-events invariant. -/
theorem inv_postRender (s : QuizState) (h : PreInv s) : Inv (postRender s) := by
  obtain ⟨hc, hpl⟩ := h
  obtain ⟨fq, fs, fm, fcur, flv, fsc, ft, fsel, fiac, faq, fca, fmap, fua,
    fvis, fsrs, fpm⟩ := postRender_facts s
  by_cases hend : (postRender s).quizEnded = true
  · refine ⟨⟨?_, ?_, ?_, ?_, ?_, ?_, ?_, ?_, ?_, ?_, ?_, ?_, ?_, ?_, ?_⟩,
      ?_, ?_⟩
    · rw [fm, fs]; exact hc.hmode
    · rw [fq]; exact hc.hlen
    · rw [fmap, fq]; exact hc.hansLen
    · rw [fua, fq]; exact hc.huaLen
    · rw [fvis, fq]; exact hc.hvisLen
    · rw [fcur, fq]; exact hc.hcur
    · intro _; exact hend
    · intro hf; rw [hf] at hend; exact Bool.noConfusion hend
    · rw [fm, fsrs]; exact hc.himmRs
    · rw [fm, fua, fmap]; exact hc.himmUa
    · rw [fm, fsc, fq, fua]; exact hc.himmScore
    · rw [fm, fca, fq, fua]; exact hc.himmCorrect
    · rw [fm, faq, fua]; exact hc.himmAnswered
    · intro _ hf; rw [hf] at hend; exact Bool.noConfusion hend
    · intro _ hf; rw [hf] at hend; exact Bool.noConfusion hend
    · intro h0
      exact postRender_time_up s (by rw [ft] at h0; exact h0)
    · intro hf; rw [hf] at hend; exact Bool.noConfusion hend
  · have hend' : (postRender s).quizEnded = false := by
      cases hpe : (postRender s).quizEnded with
      | false => rfl
      | true => exact absurd hpe hend
    obtain ⟨hid, hlive⟩ := postRender_self_of_live s hend'
    rw [hid]
    refine ⟨hc, ?_, ?_⟩
    · intro h0
      have := (postRender_time_up s h0).2
      rw [hid] at this
      rw [this] at hlive
      exact Bool.noConfusion hlive
    · rintro h0 ⟨hl, hle⟩
      have hsrs : s.showReviewScreen = false := hpl h0 hl hle
      have hfire : applyEndGuard s = { s with quizEnded := true } :=
        applyEndGuard_fire s h0 hsrs (Or.inr ⟨hl, hle⟩)
      have : (postRender s).quizEnded = true := by
        rw [postRender, applyEndTally_quizEnded]
        rw [hfire]
        exact applyTimeUp_ended_mono _ rfl
      rw [hid] at this
      rw [this] at hlive
      exact Bool.noConfusion hlive

theorem bool_eq_false {b : Bool} (h : ¬ b = true) : b = false := by
  cases b
  · rfl
  · exact absurd rfl h

theorem option_eq_none {o : Option Nat} (h : o.isSome = false) : o = none := by
  cases o
  · rfl
  · exact Bool.noConfusion h

theorem preInv_of_inv (s : QuizState) (h : Inv s) : PreInv s :=
  ⟨h.1, fun hq hl hle => absurd ⟨hl, hle⟩ (h.2.2 hq)⟩

theorem preInv_tick (s : QuizState) (h : Inv s) :
    PreInv (stepEvent QuizEvent.tick s) := by
  show PreInv (if s.isTimerRunning = true ∧ 0 < s.quizTimeLeft
    then { s with quizTimeLeft := s.quizTimeLeft - 1 } else s)
  by_cases hcnd : s.isTimerRunning = true ∧ 0 < s.quizTimeLeft
  · rw [if_pos hcnd]
    exact ⟨coreInv_transport s _ rfl rfl rfl rfl rfl rfl rfl rfl rfl rfl rfl
      rfl rfl rfl rfl h.1,
      fun hq hl hle => absurd ⟨hl, hle⟩ (h.2.2 hq)⟩
  · rw [if_neg hcnd]
    exact preInv_of_inv s h

theorem preInv_navigate (i : Nat) (s : QuizState) (h : Inv s) :
    PreInv (stepEvent (QuizEvent.navigate i) s) := by
  show PreInv (if s.showReviewScreen = true then s else navigateToQuestion i s)
  by_cases hsrs : s.showReviewScreen = true
  · rw [if_pos hsrs]
    exact preInv_of_inv s h
  · rw [if_neg hsrs]
    by_cases hrej : i = s.currentQuestionIndex
        ∨ (s.isReviewMode = false
            ∧ s.answeredQuestionsMap.getD i false = true)
        ∨ s.isTimerRunning = false
    · rw [nav_rejected i s hrej]
      exact preInv_of_inv s h
    · by_cases hr : i < s.questions.length
      · rw [nav_accepted i s hrej hr]
        obtain ⟨hc, htime, hlives⟩ := h
        refine ⟨⟨?_, ?_, ?_, ?_, ?_, ?_, ?_, ?_, ?_, ?_, ?_, ?_, ?_, ?_, ?_⟩,
          ?_⟩
        · exact hc.hmode
        · exact hc.hlen
        · exact hc.hansLen
        · exact hc.huaLen
        · rw [List.length_set]; exact hc.hvisLen
        · exact hr
        · exact hc.hrun
        · exact hc.htally
        · exact hc.himmRs
        · exact hc.himmUa
        · exact hc.himmScore
        · exact hc.himmCorrect
        · exact hc.himmAnswered
        · intro h0 _ hmap
          exact absurd (Or.inr (Or.inl ⟨h0, hmap⟩)) hrej
        · exact hc.hrevZero
        · exact fun hq hl hle => absurd ⟨hl, hle⟩ (hlives hq)
      · rw [nav_out_of_range i s hrej hr]
        exact preInv_of_inv s h

theorem preInv_reviewEdit (i : Nat) (s : QuizState) (h : Inv s) :
    PreInv (stepEvent (QuizEvent.reviewEdit i) s) := by
  show PreInv (if s.showReviewScreen = true ∧ i < s.questions.length
    then reviewEditClick i s else s)
  by_cases hg : s.showReviewScreen = true ∧ i < s.questions.length
  · rw [if_pos hg]
    unfold reviewEditClick
    by_cases hrn : s.isTimerRunning = true
    · rw [if_pos hrn]
      obtain ⟨hc, htime, hlives⟩ := h
      refine ⟨⟨?_, ?_, ?_, ?_, ?_, ?_, ?_, ?_, ?_, ?_, ?_, ?_, ?_, ?_, ?_⟩,
        ?_⟩
      · exact hc.hmode
      · exact hc.hlen
      · exact hc.hansLen
      · exact hc.huaLen
      · exact hc.hvisLen
      · exact hg.2
      · exact hc.hrun
      · exact hc.htally
      · intro _; rfl
      · exact hc.himmUa
      · exact hc.himmScore
      · exact hc.himmCorrect
      · exact hc.himmAnswered
      · intro h0 _ _
        have hcon := hc.himmRs h0
        rw [hg.1] at hcon
        exact Bool.noConfusion hcon
      · exact hc.hrevZero
      · exact fun _ _ _ => rfl
    · rw [if_neg hrn]
      exact preInv_of_inv s h
  · rw [if_neg hg]
    exact preInv_of_inv s h

theorem preInv_submit (s : QuizState) (h : Inv s) :
    PreInv (stepEvent QuizEvent.submit s) := by
  show PreInv (if s.showReviewScreen = true then handleSubmitReview s else s)
  by_cases hsrs : s.showReviewScreen = true
  · rw [if_pos hsrs]
    by_cases hrej : answeredCnt s.userAnswers < s.questions.length
    · rw [hsr_rejected s hrej]
      exact preInv_of_inv s h
    · rw [hsr_accepted s hrej]
      obtain ⟨hc, _, _⟩ := h
      refine ⟨⟨?_, ?_, ?_, ?_, ?_, ?_, ?_, ?_, ?_, ?_, ?_, ?_, ?_, ?_, ?_⟩,
        ?_⟩
      · exact hc.hmode
      · exact hc.hlen
      · exact hc.hansLen
      · exact hc.huaLen
      · exact hc.hvisLen
      · exact hc.hcur
      · intro _; rfl
      · intro hf; exact Bool.noConfusion hf
      · intro h0
        have hcon := hc.himmRs h0
        rw [hsrs] at hcon
        exact Bool.noConfusion hcon
      · intro h0
        have hcon := hc.himmRs h0
        rw [hsrs] at hcon
        exact Bool.noConfusion hcon
      · intro _; rfl
      · intro _; rfl
      · intro _; rfl
      · intro _ hf; exact Bool.noConfusion hf
      · intro _ hf; exact Bool.noConfusion hf
      · exact fun hf _ _ => Bool.noConfusion hf
  · rw [if_neg hsrs]
    exact preInv_of_inv s h

theorem findNextIndex_some_spec (u : QuizState) (j : Nat)
    (hcur : u.currentQuestionIndex < u.questions.length)
    (hf : findNextIndex u = some j) :
    j < u.questions.length
      ∧ u.answeredQuestionsMap.getD j false = false := by
  unfold findNextIndex at hf
  cases hfw : findUnanswered u.answeredQuestionsMap
      (u.currentQuestionIndex + 1) u.questions.length with
  | some k =>
    rw [hfw] at hf
    obtain rfl : k = j := Option.some.inj hf
    unfold findUnanswered at hfw
    have hs := findAux_some _ _ _ _ hfw
    exact ⟨by omega, hs.2.2⟩
  | none =>
    rw [hfw] at hf
    unfold findUnanswered at hf
    have hs := findAux_some _ _ _ _ hf
    exact ⟨by omega, hs.2.2⟩

theorem preInv_mtn_end (u : QuizState) (hc : CoreInv u) :
    PreInv ({ u with
      selectedAnswer := none,
      isAnswerCorrect := none,
      quizEnded := true } : QuizState) := by
  refine ⟨⟨?_, ?_, ?_, ?_, ?_, ?_, ?_, ?_, ?_, ?_, ?_, ?_, ?_, ?_, ?_⟩, ?_⟩
  · exact hc.hmode
  · exact hc.hlen
  · exact hc.hansLen
  · exact hc.huaLen
  · exact hc.hvisLen
  · exact hc.hcur
  · intro _; rfl
  · intro hf; exact Bool.noConfusion hf
  · exact hc.himmRs
  · exact hc.himmUa
  · exact hc.himmScore
  · exact hc.himmCorrect
  · exact hc.himmAnswered
  · intro _ hf; exact Bool.noConfusion hf
  · intro _ hf; exact Bool.noConfusion hf
  · exact fun hf _ _ => Bool.noConfusion hf

theorem preInv_mtn_review (u : QuizState) (hc : CoreInv u)
    (brm : u.isReviewMode = true)
    (hlv : u.quizEnded = false
      → ¬(u.settings.livesEnabled = true ∧ u.lives ≤ 0)) :
    PreInv ({ u with
      selectedAnswer := none,
      isAnswerCorrect := none,
      showReviewScreen := true } : QuizState) := by
  refine ⟨⟨?_, ?_, ?_, ?_, ?_, ?_, ?_, ?_, ?_, ?_, ?_, ?_, ?_, ?_, ?_⟩, ?_⟩
  · exact hc.hmode
  · exact hc.hlen
  · exact hc.hansLen
  · exact hc.huaLen
  · exact hc.hvisLen
  · exact hc.hcur
  · exact hc.hrun
  · exact hc.htally
  · intro h0; rw [brm] at h0; exact Bool.noConfusion h0
  · intro h0; rw [brm] at h0; exact Bool.noConfusion h0
  · intro h0; rw [brm] at h0; exact Bool.noConfusion h0
  · intro h0; rw [brm] at h0; exact Bool.noConfusion h0
  · intro h0; rw [brm] at h0; exact Bool.noConfusion h0
  · intro h0; rw [brm] at h0; exact Bool.noConfusion h0
  · exact hc.hrevZero
  · exact fun hq hl hle => absurd ⟨hl, hle⟩ (hlv hq)

theorem preInv_mtn (u : QuizState) (hc : CoreInv u)
    (hlv : u.quizEnded = false
      → ¬(u.settings.livesEnabled = true ∧ u.lives ≤ 0)) :
    PreInv (moveToNextQuestion u) := by
  by_cases b1 : u.questions.length ≤ countTrue u.answeredQuestionsMap
  · by_cases brm : u.isReviewMode = true
    · rw [mtn_all_rev u b1 brm]
      exact preInv_mtn_review u hc brm hlv
    · rw [mtn_all_imm u b1 (bool_eq_false brm)]
      exact preInv_mtn_end u hc
  · by_cases b2 : u.settings.livesEnabled = true ∧ u.lives ≤ 0
    · rw [mtn_lives u b1 b2]
      exact preInv_mtn_end u hc
    · by_cases b3 : u.questions.length = 1
      · by_cases brm : u.isReviewMode = true
        · rw [mtn_single_rev u b1 b2 b3 brm]
          exact preInv_mtn_review u hc brm hlv
        · rw [mtn_single_imm u b1 b2 b3 (bool_eq_false brm)]
          exact preInv_mtn_end u hc
      · cases hf : findNextIndex u with
        | none =>
          by_cases brm : u.isReviewMode = true
          · rw [mtn_none_rev u b1 b2 b3 hf brm]
            exact preInv_mtn_review u hc brm hlv
          · rw [mtn_none_imm u b1 b2 b3 hf (bool_eq_false brm)]
            exact preInv_mtn_end u hc
        | some j =>
          rw [mtn_found u j b1 b2 b3 hf]
          obtain ⟨hjlen, hjun⟩ := findNextIndex_some_spec u j hc.hcur hf
          refine ⟨⟨?_, ?_, ?_, ?_, ?_, ?_, ?_, ?_, ?_, ?_, ?_, ?_, ?_, ?_,
            ?_⟩, ?_⟩
          · exact hc.hmode
          · exact hc.hlen
          · exact hc.hansLen
          · exact hc.huaLen
          · rw [List.length_set]; exact hc.hvisLen
          · exact hjlen
          · exact hc.hrun
          · exact hc.htally
          · exact hc.himmRs
          · exact hc.himmUa
          · exact hc.himmScore
          · exact hc.himmCorrect
          · exact hc.himmAnswered
          · intro _ _ hmap
            rw [hjun] at hmap
            exact Bool.noConfusion hmap
          · exact hc.hrevZero
          · exact fun hq hl hle => absurd ⟨hl, hle⟩ (hlv hq)

theorem preInv_advance (s : QuizState) (h : Inv s) :
    PreInv (stepEvent QuizEvent.advance s) := by
  show PreInv (if 0 < s.pendingMoves
    then moveToNextQuestion { s with pendingMoves := s.pendingMoves - 1 }
    else s)
  by_cases hp : 0 < s.pendingMoves
  · rw [if_pos hp]
    refine preInv_mtn _ ?_ ?_
    · exact coreInv_transport s _ rfl rfl rfl rfl rfl rfl rfl rfl rfl rfl rfl
        rfl rfl rfl rfl h.1
    · exact fun hq => h.2.2 hq
  · rw [if_neg hp]
    exact preInv_of_inv s h

theorem preInv_answer (i : Nat) (s : QuizState) (h : Inv s)
    (he : s.quizEnded = false) :
    PreInv (stepEvent (QuizEvent.answer i) s) := by
  show PreInv (if s.showReviewScreen = true then s else handleAnswerClick i s)
  by_cases hsrs : s.showReviewScreen = true
  · rw [if_pos hsrs]
    exact preInv_of_inv s h
  · rw [if_neg hsrs]
    have hsrs' : s.showReviewScreen = false := bool_eq_false hsrs
    by_cases hrej : s.selectedAnswer ≠ none ∨ s.isTimerRunning = false
    · rw [hac_rejected i s hrej]
      exact preInv_of_inv s h
    · have hsel : s.selectedAnswer = none := by
        by_cases hx : s.selectedAnswer = none
        · exact hx
        · exact absurd (Or.inl hx) hrej
      have hrn : s.isTimerRunning = true := by
        cases hx : s.isTimerRunning
        · exact absurd (Or.inr hx) hrej
        · rfl
      obtain ⟨hc, htime, hlives⟩ := h
      by_cases hrm : s.isReviewMode = true
      · rw [hac_review i s hsel hrn hrm]
        refine ⟨⟨?_, ?_, ?_, ?_, ?_, ?_, ?_, ?_, ?_, ?_, ?_, ?_, ?_, ?_,
          ?_⟩, ?_⟩
        · exact hc.hmode
        · exact hc.hlen
        · rw [List.length_set]; exact hc.hansLen
        · rw [List.length_set]; exact hc.huaLen
        · exact hc.hvisLen
        · exact hc.hcur
        · intro hf
          have hf' : s.isTimerRunning = false := hf
          rw [hrn] at hf'
          exact Bool.noConfusion hf'
        · exact hc.htally
        · intro h0; rw [hrm] at h0; exact Bool.noConfusion h0
        · intro h0; rw [hrm] at h0; exact Bool.noConfusion h0
        · intro h0; rw [hrm] at h0; exact Bool.noConfusion h0
        · intro h0; rw [hrm] at h0; exact Bool.noConfusion h0
        · intro h0; rw [hrm] at h0; exact Bool.noConfusion h0
        · intro h0; rw [hrm] at h0; exact Bool.noConfusion h0
        · exact hc.hrevZero
        · exact fun _ _ _ => hsrs'
      · have hrm' : s.isReviewMode = false := bool_eq_false hrm
        have hmapcur : s.answeredQuestionsMap.getD
            s.currentQuestionIndex false = false := by
          cases hx : s.answeredQuestionsMap.getD s.currentQuestionIndex false
          · rfl
          · exact absurd hsel (hc.himmSel hrm' he hx)
        have huacur : s.userAnswers.getD s.currentQuestionIndex none
            = none := by
          apply option_eq_none
          rw [hc.himmUa hrm' s.currentQuestionIndex]
          exact hmapcur
        have hcurua : s.currentQuestionIndex < s.userAnswers.length := by
          rw [hc.huaLen]; exact hc.hcur
        have hcurmap : s.currentQuestionIndex
            < s.answeredQuestionsMap.length := by
          rw [hc.hansLen]; exact hc.hcur
        have hUa : ∀ j,
            ((s.userAnswers.set s.currentQuestionIndex
              (some i)).getD j none).isSome
            = (s.answeredQuestionsMap.set s.currentQuestionIndex
              true).getD j false := by
          intro j
          by_cases hj : j = s.currentQuestionIndex
          · subst hj
            rw [getD_set_eq _ _ _ _ hcurua, getD_set_eq _ _ _ _ hcurmap]
            rfl
          · rw [getD_set_ne _ _ _ _ _ hj, getD_set_ne _ _ _ _ _ hj]
            exact hc.himmUa hrm' j
        have hScoreSet := scoreOf_set s.questions s.userAnswers
          s.currentQuestionIndex i hc.huaLen hc.hcur huacur
        have hCorrSet := correctCnt_set s.questions s.userAnswers
          s.currentQuestionIndex i hc.huaLen hc.hcur huacur
        have hAnsSet := answeredCnt_set s.userAnswers
          s.currentQuestionIndex i hcurua huacur
        by_cases hcor : i = (s.questions.getD s.currentQuestionIndex
            defaultQuestion).correctAnswer
        · rw [hac_imm_correct i s hsel hrn hrm' hcor]
          refine ⟨⟨?_, ?_, ?_, ?_, ?_, ?_, ?_, ?_, ?_, ?_, ?_, ?_, ?_, ?_,
            ?_⟩, ?_⟩
          · exact hc.hmode
          · exact hc.hlen
          · rw [List.length_set]; exact hc.hansLen
          · rw [List.length_set]; exact hc.huaLen
          · exact hc.hvisLen
          · exact hc.hcur
          · intro hf
            have hf' : s.isTimerRunning = false := hf
            rw [hrn] at hf'
            exact Bool.noConfusion hf'
          · exact hc.htally
          · exact fun _ => hsrs'
          · exact fun _ => hUa
          · intro _
            show s.score + (s.questions.getD s.currentQuestionIndex
              defaultQuestion).points = _
            rw [hScoreSet, if_pos hcor, hc.himmScore hrm']
          · intro _
            show s.correctAnswers + 1 = _
            rw [hCorrSet, if_pos hcor, hc.himmCorrect hrm']
          · intro _
            show s.answeredQuestions + 1 = _
            rw [hAnsSet, hc.himmAnswered hrm']
          · exact fun _ _ _ hx => Option.noConfusion hx
          · intro h0; rw [hrm'] at h0; exact Bool.noConfusion h0
          · exact fun hq hl hle => hsrs'
        · by_cases hlv : s.settings.livesEnabled = true
          · rw [hac_imm_wrong_lives i s hsel hrn hrm' hcor hlv]
            refine ⟨⟨?_, ?_, ?_, ?_, ?_, ?_, ?_, ?_, ?_, ?_, ?_, ?_, ?_, ?_,
              ?_⟩, ?_⟩
            · exact hc.hmode
            · exact hc.hlen
            · rw [List.length_set]; exact hc.hansLen
            · rw [List.length_set]; exact hc.huaLen
            · exact hc.hvisLen
            · exact hc.hcur
            · intro hf
              have hf' : s.isTimerRunning = false := hf
              rw [hrn] at hf'
              exact Bool.noConfusion hf'
            · exact hc.htally
            · exact fun _ => hsrs'
            · exact fun _ => hUa
            · intro _
              show s.score = _
              rw [hScoreSet, if_neg hcor, Nat.add_zero]
              exact hc.himmScore hrm'
            · intro _
              show s.correctAnswers = _
              rw [hCorrSet, if_neg hcor, Nat.add_zero]
              exact hc.himmCorrect hrm'
            · intro _
              show s.answeredQuestions + 1 = _
              rw [hAnsSet, hc.himmAnswered hrm']
            · exact fun _ _ _ hx => Option.noConfusion hx
            · intro h0; rw [hrm'] at h0; exact Bool.noConfusion h0
            · exact fun hq hl hle => hsrs'
          · rw [hac_imm_wrong_nolives i s hsel hrn hrm' hcor hlv]
            refine ⟨⟨?_, ?_, ?_, ?_, ?_, ?_, ?_, ?_, ?_, ?_, ?_, ?_, ?_, ?_,
              ?_⟩, ?_⟩
            · exact hc.hmode
            · exact hc.hlen
            · rw [List.length_set]; exact hc.hansLen
            · rw [List.length_set]; exact hc.huaLen
            · exact hc.hvisLen
            · exact hc.hcur
            · intro hf
              have hf' : s.isTimerRunning = false := hf
              rw [hrn] at hf'
              exact Bool.noConfusion hf'
            · exact hc.htally
            · exact fun _ => hsrs'
            · exact fun _ => hUa
            · intro _
              show s.score = _
              rw [hScoreSet, if_neg hcor, Nat.add_zero]
              exact hc.himmScore hrm'
            · intro _
              show s.correctAnswers = _
              rw [hCorrSet, if_neg hcor, Nat.add_zero]
              exact hc.himmCorrect hrm'
            · intro _
              show s.answeredQuestions + 1 = _
              rw [hAnsSet, hc.himmAnswered hrm']
            · exact fun _ _ _ hx => Option.noConfusion hx
            · intro h0; rw [hrm'] at h0; exact Bool.noConfusion h0
            · exact fun hq hl hle => hsrs'

theorem preInv_stepEvent (e : QuizEvent) (s : QuizState) (h : Inv s)
    (he : s.quizEnded = false) : PreInv (stepEvent e s) := by
  cases e with
  | tick => exact preInv_tick s h
  | answer i => exact preInv_answer i s h he
  | advance => exact preInv_advance s h
  | navigate i => exact preInv_navigate i s h
  | reviewEdit i => exact preInv_reviewEdit i s h
  | submit => exact preInv_submit s h

/-- Every event preserves the between-events invariant. -/
theorem inv_step (e : QuizEvent) (s : QuizState) (h : Inv s) :
    Inv (step e s) := by
  unfold step
  by_cases he : s.quizEnded = true
  · rw [if_pos he]
    exact h
  · rw [if_neg he]
    exact inv_postRender _ (preInv_stepEvent e s h (bool_eq_false he))

theorem inv_runEvents (s : QuizState) (evs : List QuizEvent) (h : Inv s) :
    Inv (runEvents s evs) := by
  induction evs generalizing s with
  | nil => exact h
  | cons e t ih => exact ih (step e s) (inv_step e s h)

theorem preInv_init (order : List Question) (settings : Settings)
    (h : 0 < order.length) : PreInv (initState order settings) := by
  refine ⟨⟨?_, ?_, ?_, ?_, ?_, ?_, ?_, ?_, ?_, ?_, ?_, ?_, ?_, ?_, ?_⟩, ?_⟩
  · rfl
  · exact h
  · exact List.length_replicate order.length false
  · exact List.length_replicate order.length none
  · show ((List.replicate order.length false).set 0 true).length
      = order.length
    rw [List.length_set]
    exact List.length_replicate order.length false
  · exact h
  · intro hf; exact Bool.noConfusion hf
  · intro _; rfl
  · intro _; rfl
  · intro _ j
    show ((List.replicate order.length (none : Option Nat)).getD
      j none).isSome = (List.replicate order.length false).getD j false
    rw [getD_replicate, getD_replicate]
    rfl
  · intro _
    show (0 : Nat) = scoreOf order (List.replicate order.length none)
    rw [scoreOf_replicate]
  · intro _
    show (0 : Nat) = correctCnt order (List.replicate order.length none)
    rw [correctCnt_replicate]
  · intro _
    show (0 : Nat) = answeredCnt (List.replicate order.length none)
    rw [answeredCnt_replicate]
  · intro _ _ hmap
    have hmap' : (List.replicate order.length false).getD 0 false = true :=
      hmap
    rw [getD_replicate] at hmap'
    exact Bool.noConfusion hmap'
  · intro _ _; exact ⟨rfl, rfl, rfl⟩
  · exact fun _ _ _ => rfl

/-- The state after mount satisfies the between-events invariant. -/
theorem inv_start (order : List Question) (settings : Settings)
    (h : 0 < order.length) : Inv (startState order settings) :=
  inv_postRender _ (preInv_init order settings h)

theorem step_ended (e : QuizEvent) (s : QuizState) (h : s.quizEnded = true) :
    step e s = s := by
  unfold step
  rw [if_pos h]

theorem runEvents_ended (s : QuizState) (evs : List QuizEvent)
    (h : s.quizEnded = true) : runEvents s evs = s := by
  induction evs with
  | nil => rfl
  | cons e t ih =>
    show runEvents (step e s) t = s
    rw [step_ended e s h]
    exact ih

/-! ### The question list and the settings are fixed for the session -/

theorem handleAnswerClick_const (i : Nat) (s : QuizState) :
    (handleAnswerClick i s).settings = s.settings
      ∧ (handleAnswerClick i s).questions = s.questions := by
  unfold handleAnswerClick
  split
  · exact ⟨rfl, rfl⟩
  · dsimp only
    split
    · exact ⟨rfl, rfl⟩
    · split
      · exact ⟨rfl, rfl⟩
      · split
        · exact ⟨rfl, rfl⟩
        · exact ⟨rfl, rfl⟩

theorem moveToNextQuestion_const (s : QuizState) :
    (moveToNextQuestion s).settings = s.settings
      ∧ (moveToNextQuestion s).questions = s.questions := by
  unfold moveToNextQuestion
  dsimp only
  split
  · split
    · exact ⟨rfl, rfl⟩
    · exact ⟨rfl, rfl⟩
  · split
    · exact ⟨rfl, rfl⟩
    · split
      · split
        · exact ⟨rfl, rfl⟩
        · exact ⟨rfl, rfl⟩
      · split
        · split
          · exact ⟨rfl, rfl⟩
          · exact ⟨rfl, rfl⟩
        · exact ⟨rfl, rfl⟩

theorem navigateToQuestion_const (i : Nat) (s : QuizState) :
    (navigateToQuestion i s).settings = s.settings
      ∧ (navigateToQuestion i s).questions = s.questions := by
  unfold navigateToQuestion
  split
  · exact ⟨rfl, rfl⟩
  · split
    · exact ⟨rfl, rfl⟩
    · exact ⟨rfl, rfl⟩

theorem reviewEditClick_const (i : Nat) (s : QuizState) :
    (reviewEditClick i s).settings = s.settings
      ∧ (reviewEditClick i s).questions = s.questions := by
  unfold reviewEditClick
  split
  · exact ⟨rfl, rfl⟩
  · exact ⟨rfl, rfl⟩

theorem handleSubmitReview_const (s : QuizState) :
    (handleSubmitReview s).settings = s.settings
      ∧ (handleSubmitReview s).questions = s.questions := by
  unfold handleSubmitReview
  split
  · exact ⟨rfl, rfl⟩
  · exact ⟨rfl, rfl⟩

theorem stepEvent_const (e : QuizEvent) (s : QuizState) :
    (stepEvent e s).settings = s.settings
      ∧ (stepEvent e s).questions = s.questions := by
  cases e with
  | tick =>
    show (if _ then _ else s).settings = _ ∧ (if _ then _ else s).questions = _
    split
    · exact ⟨rfl, rfl⟩
    · exact ⟨rfl, rfl⟩
  | answer i =>
    show (if _ then s else handleAnswerClick i s).settings = _
      ∧ (if _ then s else handleAnswerClick i s).questions = _
    split
    · exact ⟨rfl, rfl⟩
    · exact handleAnswerClick_const i s
  | advance =>
    show (if _ then moveToNextQuestion _ else s).settings = _
      ∧ (if _ then moveToNextQuestion _ else s).questions = _
    split
    · exact moveToNextQuestion_const _
    · exact ⟨rfl, rfl⟩
  | navigate i =>
    show (if _ then s else navigateToQuestion i s).settings = _
      ∧ (if _ then s else navigateToQuestion i s).questions = _
    split
    · exact ⟨rfl, rfl⟩
    · exact navigateToQuestion_const i s
  | reviewEdit i =>
    show (if _ then reviewEditClick i s else s).settings = _
      ∧ (if _ then reviewEditClick i s else s).questions = _
    split
    · exact reviewEditClick_const i s
    · exact ⟨rfl, rfl⟩
  | submit =>
    show (if _ then handleSubmitReview s else s).settings = _
      ∧ (if _ then handleSubmitReview s else s).questions = _
    split
    · exact handleSubmitReview_const s
    · exact ⟨rfl, rfl⟩

theorem step_const (e : QuizEvent) (s : QuizState) :
    (step e s).settings = s.settings
      ∧ (step e s).questions = s.questions := by
  unfold step
  split
  · exact ⟨rfl, rfl⟩
  · obtain ⟨f1, f2, -⟩ := postRender_facts (stepEvent e s)
    obtain ⟨g1, g2⟩ := stepEvent_const e s
    exact ⟨by rw [f2, g1], by rw [f1, g2]⟩

theorem runEvents_const (s : QuizState) (evs : List QuizEvent) :
    (runEvents s evs).settings = s.settings
      ∧ (runEvents s evs).questions = s.questions := by
  induction evs generalizing s with
  | nil => exact ⟨rfl, rfl⟩
  | cons e t ih =>
    obtain ⟨i1, i2⟩ := ih (step e s)
    obtain ⟨j1, j2⟩ := step_const e s
    refine ⟨?_, ?_⟩
    · show (runEvents (step e s) t).settings = s.settings
      rw [i1, j1]
    · show (runEvents (step e s) t).questions = s.questions
      rw [i2, j2]

theorem startState_const (order : List Question) (settings : Settings) :
    (startState order settings).settings = settings
      ∧ (startState order settings).questions = order := by
  obtain ⟨f1, f2, -⟩ := postRender_facts (initState order settings)
  exact ⟨f2, f1⟩

/-! ### Further support lemmas for the claims -/

theorem ne_true_of_eq_false {b : Bool} (h : b = false) : ¬ b = true := by
  intro hx
  rw [h] at hx
  exact Bool.noConfusion hx

theorem applyEndGuard_id_of_ended (s : QuizState) (h : s.quizEnded = true) :
    applyEndGuard s = s := by
  unfold applyEndGuard
  rw [if_neg]
  rintro ⟨hc, -⟩
  rw [h] at hc
  exact Bool.noConfusion hc

/-- On a live state satisfying the invariant, the render/effect pass is the
identity: whatever it could enforce already holds. -/
theorem postRender_id_of_inv (s : QuizState) (h : Inv s)
    (he : s.quizEnded = false) : postRender s = s := by
  apply postRender_id
  · rintro (hx | hx)
    · exact Nat.lt_irrefl _ (Nat.lt_of_lt_of_le h.1.hcur hx)
    · exact h.2.2 he hx
  · intro h0
    have hx := (h.2.1 h0).2
    rw [he] at hx
    exact Bool.noConfusion hx
  · exact he

theorem step_eq_self (e : QuizEvent) (s : QuizState) (h : Inv s)
    (he : s.quizEnded = false) (hse : stepEvent e s = s) : step e s = s := by
  unfold step
  rw [if_neg (ne_true_of_eq_false he), hse, postRender_id_of_inv s h he]

theorem getD_set_true_mono (l : List Bool) (k j : Nat)
    (h : l.getD j false = true) : (l.set k true).getD j false = true := by
  by_cases hk : k < l.length
  · by_cases hj : j = k
    · subst hj
      rw [getD_set_eq _ _ _ _ hk]
    · rw [getD_set_ne _ _ _ _ _ hj]
      exact h
  · rw [List.set_eq_of_length_le (Nat.le_of_not_lt hk)]
    exact h

theorem handleAnswerClick_visited (i : Nat) (s : QuizState) :
    (handleAnswerClick i s).visitedQuestionsMap = s.visitedQuestionsMap := by
  unfold handleAnswerClick
  split
  · rfl
  · dsimp only
    split
    · rfl
    · split
      · rfl
      · split
        · rfl
        · rfl

theorem moveToNextQuestion_visited_mono (s : QuizState) (j : Nat)
    (h : s.visitedQuestionsMap.getD j false = true) :
    (moveToNextQuestion s).visitedQuestionsMap.getD j false = true := by
  unfold moveToNextQuestion
  dsimp only
  split
  · split
    · exact h
    · exact h
  · split
    · exact h
    · split
      · split
        · exact h
        · exact h
      · split
        · split
          · exact h
          · exact h
        · exact getD_set_true_mono _ _ _ h

theorem navigateToQuestion_visited_mono (i : Nat) (s : QuizState) (j : Nat)
    (h : s.visitedQuestionsMap.getD j false = true) :
    (navigateToQuestion i s).visitedQuestionsMap.getD j false = true := by
  unfold navigateToQuestion
  split
  · exact h
  · split
    · exact getD_set_true_mono _ _ _ h
    · exact h

theorem reviewEditClick_visited (i : Nat) (s : QuizState) :
    (reviewEditClick i s).visitedQuestionsMap = s.visitedQuestionsMap := by
  unfold reviewEditClick
  split
  · rfl
  · rfl

theorem handleSubmitReview_visited (s : QuizState) :
    (handleSubmitReview s).visitedQuestionsMap = s.visitedQuestionsMap := by
  unfold handleSubmitReview
  split
  · rfl
  · rfl

theorem step_visited_mono (e : QuizEvent) (s : QuizState) (j : Nat)
    (h : s.visitedQuestionsMap.getD j false = true) :
    (step e s).visitedQuestionsMap.getD j false = true := by
  unfold step
  split
  · exact h
  · obtain ⟨-, -, -, -, -, -, -, -, -, -, -, -, -, fvis, -, -⟩ :=
      postRender_facts (stepEvent e s)
    rw [fvis]
    cases e with
    | tick =>
      show (if _ then { s with quizTimeLeft := _ }
        else s).visitedQuestionsMap.getD j false = true
      split
      · exact h
      · exact h
    | answer i =>
      show (if _ then s
        else handleAnswerClick i s).visitedQuestionsMap.getD j false = true
      split
      · exact h
      · rw [handleAnswerClick_visited]
        exact h
    | advance =>
      show (if _ then moveToNextQuestion _
        else s).visitedQuestionsMap.getD j false = true
      split
      · exact moveToNextQuestion_visited_mono _ j h
      · exact h
    | navigate i =>
      show (if _ then s
        else navigateToQuestion i s).visitedQuestionsMap.getD j false = true
      split
      · exact h
      · exact navigateToQuestion_visited_mono i s j h
    | reviewEdit i =>
      show (if _ then reviewEditClick i s
        else s).visitedQuestionsMap.getD j false = true
      split
      · rw [reviewEditClick_visited]
        exact h
      · exact h
    | submit =>
      show (if _ then handleSubmitReview s
        else s).visitedQuestionsMap.getD j false = true
      split
      · rw [handleSubmitReview_visited]
        exact h
      · exact h

theorem handleAnswerClick_time (i : Nat) (s : QuizState) :
    (handleAnswerClick i s).quizTimeLeft = s.quizTimeLeft := by
  unfold handleAnswerClick
  split
  · rfl
  · dsimp only
    split
    · rfl
    · split
      · rfl
      · split
        · rfl
        · rfl

theorem moveToNextQuestion_time (s : QuizState) :
    (moveToNextQuestion s).quizTimeLeft = s.quizTimeLeft := by
  unfold moveToNextQuestion
  dsimp only
  split
  · split
    · rfl
    · rfl
  · split
    · rfl
    · split
      · split
        · rfl
        · rfl
      · split
        · split
          · rfl
          · rfl
        · rfl

theorem navigateToQuestion_time (i : Nat) (s : QuizState) :
    (navigateToQuestion i s).quizTimeLeft = s.quizTimeLeft := by
  unfold navigateToQuestion
  split
  · rfl
  · split
    · rfl
    · rfl

theorem reviewEditClick_time (i : Nat) (s : QuizState) :
    (reviewEditClick i s).quizTimeLeft = s.quizTimeLeft := by
  unfold reviewEditClick
  split
  · rfl
  · rfl

theorem handleSubmitReview_time (s : QuizState) :
    (handleSubmitReview s).quizTimeLeft = s.quizTimeLeft := by
  unfold handleSubmitReview
  split
  · rfl
  · rfl

theorem stepEvent_time_eq_of_ne_tick (e : QuizEvent) (s : QuizState)
    (h : e ≠ QuizEvent.tick) :
    (stepEvent e s).quizTimeLeft = s.quizTimeLeft := by
  cases e with
  | tick => exact absurd rfl h
  | answer i =>
    show (if _ then s else handleAnswerClick i s).quizTimeLeft = _
    split
    · rfl
    · exact handleAnswerClick_time i s
  | advance =>
    show (if _ then moveToNextQuestion _ else s).quizTimeLeft = _
    split
    · exact moveToNextQuestion_time _
    · rfl
  | navigate i =>
    show (if _ then s else navigateToQuestion i s).quizTimeLeft = _
    split
    · rfl
    · exact navigateToQuestion_time i s
  | reviewEdit i =>
    show (if _ then reviewEditClick i s else s).quizTimeLeft = _
    split
    · exact reviewEditClick_time i s
    · rfl
  | submit =>
    show (if _ then handleSubmitReview s else s).quizTimeLeft = _
    split
    · exact handleSubmitReview_time s
    · rfl

theorem stepEvent_time_le (e : QuizEvent) (s : QuizState) :
    (stepEvent e s).quizTimeLeft ≤ s.quizTimeLeft := by
  cases e with
  | tick =>
    show (if _ then { s with quizTimeLeft := s.quizTimeLeft - 1 }
      else s).quizTimeLeft ≤ _
    split
    · exact Nat.sub_le _ _
    · exact Nat.le_refl _
  | answer i =>
    rw [stepEvent_time_eq_of_ne_tick _ s (by intro hx; exact QuizEvent.noConfusion hx)]
  | advance =>
    rw [stepEvent_time_eq_of_ne_tick _ s (by intro hx; exact QuizEvent.noConfusion hx)]
  | navigate i =>
    rw [stepEvent_time_eq_of_ne_tick _ s (by intro hx; exact QuizEvent.noConfusion hx)]
  | reviewEdit i =>
    rw [stepEvent_time_eq_of_ne_tick _ s (by intro hx; exact QuizEvent.noConfusion hx)]
  | submit =>
    rw [stepEvent_time_eq_of_ne_tick _ s (by intro hx; exact QuizEvent.noConfusion hx)]

/-! ### The claims -/

/-- C7: at session initialization the engine builds the candidate set from
the questions whose category list contains the selected category id; whenever
that subset is empty but the bank is not, the whole bank is used instead —
the fallback set is the full bank (same size), never the empty set. -/
theorem C7_category_filter_fallback :
    ∀ (bank : List Question) (category : Nat),
      (∀ q, q ∈ categoryQuestions bank category ↔
        (q ∈ bank ∧ category ∈ q.categories)) ∧
      (0 < (categoryQuestions bank category).length →
        selectQuestions bank category = categoryQuestions bank category) ∧
      (categoryQuestions bank category = [] →
        selectQuestions bank category = bank
          ∧ (selectQuestions bank category).length = bank.length) ∧
      (0 < bank.length → categoryQuestions bank category = [] →
        0 < (selectQuestions bank category).length) := by
  intro bank category
  have hsel : ∀ h : categoryQuestions bank category = [],
      selectQuestions bank category = bank := by
    intro h
    unfold selectQuestions
    dsimp only
    rw [h]
    rfl
  refine ⟨?_, ?_, ?_, ?_⟩
  · intro q
    unfold categoryQuestions
    rw [List.mem_filter]
    constructor
    · rintro ⟨h1, h2⟩
      exact ⟨h1, by simpa using h2⟩
    · rintro ⟨h1, h2⟩
      exact ⟨h1, by simpa using h2⟩
  · intro h
    unfold selectQuestions
    dsimp only
    rw [if_pos h]
  · intro h
    exact ⟨hsel h, by rw [hsel h]⟩
  · intro h1 h2
    rw [hsel h2]
    exact h1

/-- C7 witness: a one-question bank tagged with category 1 only; selecting
category 2 filters to the empty set and the engine falls back to the whole
bank. -/
theorem C7_category_filter_fallback_witness :
    (qA ∈ categoryQuestions [qA] 1 ↔ (qA ∈ [qA] ∧ 1 ∈ qA.categories))
      ∧ (selectQuestions [qA] 2 = [qA]
          ∧ (selectQuestions [qA] 2).length = ([qA] : List Question).length)
      ∧ 0 < (selectQuestions [qA] 2).length :=
  ⟨(C7_category_filter_fallback [qA] 1).1 qA,
    (C7_category_filter_fallback [qA] 2).2.2.1 (by decide),
    (C7_category_filter_fallback [qA] 2).2.2.2 (by decide) (by decide)⟩

/-- C3: in either mode the whole-quiz clock is the only thing that changes
`quizTimeLeft`: it never increases, a tick on a live running session lowers
it by exactly one, and no other event touches it.  The tick that reaches
zero ends the session and stops the timer unconditionally — the statement
places no condition on `showReviewScreen`, so this covers the review screen
— and once the timer is stopped an answer click and a navigation click are
both rejected with no state change. -/
theorem C3_single_countdown_and_timeout :
    (∀ (s : QuizState) (e : QuizEvent),
        (step e s).quizTimeLeft ≤ s.quizTimeLeft) ∧
    (∀ (s : QuizState), s.quizEnded = false → s.isTimerRunning = true →
        0 < s.quizTimeLeft →
        (step QuizEvent.tick s).quizTimeLeft = s.quizTimeLeft - 1) ∧
    (∀ (s : QuizState) (e : QuizEvent), e ≠ QuizEvent.tick →
        (step e s).quizTimeLeft = s.quizTimeLeft) ∧
    (∀ (s : QuizState), Inv s → s.quizEnded = false → s.quizTimeLeft = 1 →
        (step QuizEvent.tick s).quizTimeLeft = 0
          ∧ (step QuizEvent.tick s).quizEnded = true
          ∧ (step QuizEvent.tick s).isTimerRunning = false) ∧
    (∀ (s : QuizState) (i : Nat), Inv s → s.isTimerRunning = false →
        step (QuizEvent.answer i) s = s
          ∧ step (QuizEvent.navigate i) s = s) := by
  refine ⟨?_, ?_, ?_, ?_, ?_⟩
  · intro s e
    unfold step
    split
    · exact Nat.le_refl _
    · obtain ⟨-, -, -, -, -, -, ft, -, -, -, -, -, -, -, -, -⟩ :=
        postRender_facts (stepEvent e s)
      rw [ft]
      exact stepEvent_time_le e s
  · intro s he hrn hpos
    unfold step
    rw [if_neg (ne_true_of_eq_false he)]
    obtain ⟨-, -, -, -, -, -, ft, -, -, -, -, -, -, -, -, -⟩ :=
      postRender_facts (stepEvent QuizEvent.tick s)
    rw [ft]
    show (if s.isTimerRunning = true ∧ 0 < s.quizTimeLeft
      then { s with quizTimeLeft := s.quizTimeLeft - 1 }
      else s).quizTimeLeft = s.quizTimeLeft - 1
    rw [if_pos ⟨hrn, hpos⟩]
  · intro s e hne
    unfold step
    split
    · rfl
    · obtain ⟨-, -, -, -, -, -, ft, -, -, -, -, -, -, -, -, -⟩ :=
        postRender_facts (stepEvent e s)
      rw [ft]
      exact stepEvent_time_eq_of_ne_tick e s hne
  · intro s hinv he ht1
    have hrn : s.isTimerRunning = true := by
      cases hx : s.isTimerRunning
      · have hz := hinv.1.hrun hx
        rw [he] at hz
        exact Bool.noConfusion hz
      · rfl
    have hu0 : (stepEvent QuizEvent.tick s).quizTimeLeft = 0 := by
      show (if s.isTimerRunning = true ∧ 0 < s.quizTimeLeft
        then { s with quizTimeLeft := s.quizTimeLeft - 1 }
        else s).quizTimeLeft = 0
      rw [if_pos ⟨hrn, by omega⟩]
      show s.quizTimeLeft - 1 = 0
      omega
    have hzz := postRender_time_up (stepEvent QuizEvent.tick s) hu0
    obtain ⟨-, -, -, -, -, -, ft, -, -, -, -, -, -, -, -, -⟩ :=
      postRender_facts (stepEvent QuizEvent.tick s)
    unfold step
    rw [if_neg (ne_true_of_eq_false he)]
    exact ⟨by rw [ft]; exact hu0, hzz.2, hzz.1⟩
  · intro s i hinv hrf
    by_cases hend : s.quizEnded = true
    · exact ⟨step_ended _ _ hend, step_ended _ _ hend⟩
    · have he := bool_eq_false hend
      constructor
      · apply step_eq_self _ _ hinv he
        show (if s.showReviewScreen = true then s
          else handleAnswerClick i s) = s
        split
        · rfl
        · exact hac_rejected i s (Or.inr hrf)
      · apply step_eq_self _ _ hinv he
        show (if s.showReviewScreen = true then s
          else navigateToQuestion i s) = s
        split
        · rfl
        · exact nav_rejected i s (Or.inr (Or.inr hrf))

/-- C3 witness: a fresh immediate session ticks down by one; a one-second
review session ends on its first tick, and afterwards an answer click and a
navigation click are both no-ops. -/
theorem C3_single_countdown_and_timeout_witness :
    ((step QuizEvent.tick immStart).quizTimeLeft
        ≤ immStart.quizTimeLeft) ∧
    ((step QuizEvent.tick immStart).quizTimeLeft
        = immStart.quizTimeLeft - 1) ∧
    ((step (QuizEvent.answer 0) immStart).quizTimeLeft
        = immStart.quizTimeLeft) ∧
    ((step QuizEvent.tick revShortStart).quizTimeLeft = 0
      ∧ (step QuizEvent.tick revShortStart).quizEnded = true
      ∧ (step QuizEvent.tick revShortStart).isTimerRunning = false) ∧
    (step (QuizEvent.answer 0) (step QuizEvent.tick revShortStart)
        = step QuizEvent.tick revShortStart
      ∧ step (QuizEvent.navigate 0) (step QuizEvent.tick revShortStart)
        = step QuizEvent.tick revShortStart) :=
  ⟨C3_single_countdown_and_timeout.1 immStart QuizEvent.tick,
    C3_single_countdown_and_timeout.2.1 immStart (by decide) (by decide)
      (by decide),
    C3_single_countdown_and_timeout.2.2.1 immStart (QuizEvent.answer 0)
      (fun hx => QuizEvent.noConfusion hx),
    C3_single_countdown_and_timeout.2.2.2.1 revShortStart
      (inv_start twoQ shortRevSettings (by decide)) (by decide) (by decide),
    C3_single_countdown_and_timeout.2.2.2.2 (step QuizEvent.tick revShortStart)
      0 (inv_step QuizEvent.tick revShortStart
        (inv_start twoQ shortRevSettings (by decide))) (by decide)⟩

/-- C5: in immediate-feedback mode an answer click on a session state whose
current question is already answered, or whose clock is not running, is
rejected outright: the step returns the state unchanged, so score, lives,
questionsAnswered, correctAnswers, userAnswers and the answered map are all
untouched. -/
theorem C5_answer_rejection_no_state_change :
    ∀ (s : QuizState) (i : Nat), Inv s → s.isReviewMode = false →
      (s.answeredQuestionsMap.getD s.currentQuestionIndex false = true
        ∨ s.isTimerRunning = false) →
      step (QuizEvent.answer i) s = s := by
  intro s i hinv hrm hdis
  by_cases hend : s.quizEnded = true
  · exact step_ended _ _ hend
  · have he := bool_eq_false hend
    apply step_eq_self _ _ hinv he
    show (if s.showReviewScreen = true then s else handleAnswerClick i s) = s
    rw [if_neg (ne_true_of_eq_false (hinv.1.himmRs hrm))]
    rcases hdis with hd | hd
    · exact hac_rejected i s (Or.inl (hinv.1.himmSel hrm he hd))
    · exact hac_rejected i s (Or.inr hd)

/-- C5 witness: right after answering the first question (it is recorded as
answered and the clock still runs), a second answer click on it is a
no-op. -/
theorem C5_answer_rejection_no_state_change_witness :
    step (QuizEvent.answer 1) immAfterOne = immAfterOne :=
  C5_answer_rejection_no_state_change immAfterOne 1
    (inv_runEvents immStart [QuizEvent.answer 0]
      (inv_start twoQ immSettings (by decide)))
    (by decide) (Or.inl (by decide))

/-- C8: a jump-to-question event is rejected with no state change when the
target is the current question, the clock is stopped, or (immediate mode)
the target is already answered; an accepted jump (an in-range target while
the question screen shows) marks the target visited and moves the pointer,
changing neither score, lives, counters, recorded answers, the answered map
nor the remaining time; and no event ever clears a visited mark. -/
theorem C8_navigation_guards_and_effects :
    ∀ (s : QuizState) (i : Nat), Inv s →
      ((i = s.currentQuestionIndex ∨ s.isTimerRunning = false
          ∨ (s.isReviewMode = false
              ∧ s.answeredQuestionsMap.getD i false = true)) →
        step (QuizEvent.navigate i) s = s) ∧
      (s.quizEnded = false → s.showReviewScreen = false →
        i < s.questions.length → ¬ i = s.currentQuestionIndex →
        s.isTimerRunning = true →
        ¬(s.isReviewMode = false
            ∧ s.answeredQuestionsMap.getD i false = true) →
        (step (QuizEvent.navigate i) s).visitedQuestionsMap.getD i false
            = true
          ∧ (step (QuizEvent.navigate i) s).currentQuestionIndex = i
          ∧ (step (QuizEvent.navigate i) s).score = s.score
          ∧ (step (QuizEvent.navigate i) s).lives = s.lives
          ∧ (step (QuizEvent.navigate i) s).answeredQuestions
            = s.answeredQuestions
          ∧ (step (QuizEvent.navigate i) s).correctAnswers = s.correctAnswers
          ∧ (step (QuizEvent.navigate i) s).userAnswers = s.userAnswers
          ∧ (step (QuizEvent.navigate i) s).answeredQuestionsMap
            = s.answeredQuestionsMap
          ∧ (step (QuizEvent.navigate i) s).quizTimeLeft = s.quizTimeLeft
          ∧ (step (QuizEvent.navigate i) s).quizEnded = false) ∧
      (∀ (e : QuizEvent) (j : Nat),
        s.visitedQuestionsMap.getD j false = true →
        (step e s).visitedQuestionsMap.getD j false = true) := by
  intro s i hinv
  refine ⟨?_, ?_, ?_⟩
  · intro hdis
    by_cases hend : s.quizEnded = true
    · exact step_ended _ _ hend
    · apply step_eq_self _ _ hinv (bool_eq_false hend)
      show (if s.showReviewScreen = true then s
        else navigateToQuestion i s) = s
      split
      · rfl
      · apply nav_rejected
        rcases hdis with hd | hd | hd
        · exact Or.inl hd
        · exact Or.inr (Or.inr hd)
        · exact Or.inr (Or.inl hd)
  · intro he hsrs hr hne hrn hnoans
    have hrej : ¬(i = s.currentQuestionIndex
        ∨ (s.isReviewMode = false
            ∧ s.answeredQuestionsMap.getD i false = true)
        ∨ s.isTimerRunning = false) := by
      rintro (hd | hd | hd)
      · exact hne hd
      · exact hnoans hd
      · rw [hrn] at hd
        exact Bool.noConfusion hd
    have hnav := nav_accepted i s hrej hr
    have hstep : step (QuizEvent.navigate i) s
        = postRender (navigateToQuestion i s) := by
      unfold step
      rw [if_neg (ne_true_of_eq_false he)]
      show postRender (if s.showReviewScreen = true then s
        else navigateToQuestion i s) = _
      rw [if_neg (ne_true_of_eq_false hsrs)]
    have hpr : postRender (navigateToQuestion i s)
        = navigateToQuestion i s := by
      rw [hnav]
      apply postRender_id
      · rintro (hx | hx)
        · have hx' : s.questions.length ≤ i := hx
          exact Nat.lt_irrefl _ (Nat.lt_of_lt_of_le hr hx')
        · exact hinv.2.2 he hx
      · intro h0
        have h0' : s.quizTimeLeft = 0 := h0
        have hz := (hinv.2.1 h0').2
        rw [he] at hz
        exact Bool.noConfusion hz
      · exact he
    rw [hstep, hpr, hnav]
    refine ⟨?_, rfl, rfl, rfl, rfl, rfl, rfl, rfl, rfl, he⟩
    show (s.visitedQuestionsMap.set i true).getD i false = true
    exact getD_set_eq _ _ _ _ (by rw [hinv.1.hvisLen]; exact hr)
  · intro e j h
    exact step_visited_mono e s j h

/-- C8 witness: at the start of an immediate session, jumping to the current
question is a no-op, jumping to the unanswered second question moves the
pointer and marks it visited while changing nothing else, and a clock tick
keeps question 0 marked visited. -/
theorem C8_navigation_guards_and_effects_witness :
    (step (QuizEvent.navigate 0) immStart = immStart) ∧
    ((step (QuizEvent.navigate 1) immStart).visitedQuestionsMap.getD 1 false
        = true
      ∧ (step (QuizEvent.navigate 1) immStart).currentQuestionIndex = 1
      ∧ (step (QuizEvent.navigate 1) immStart).score = immStart.score
      ∧ (step (QuizEvent.navigate 1) immStart).lives = immStart.lives
      ∧ (step (QuizEvent.navigate 1) immStart).answeredQuestions
        = immStart.answeredQuestions
      ∧ (step (QuizEvent.navigate 1) immStart).correctAnswers
        = immStart.correctAnswers
      ∧ (step (QuizEvent.navigate 1) immStart).userAnswers
        = immStart.userAnswers
      ∧ (step (QuizEvent.navigate 1) immStart).answeredQuestionsMap
        = immStart.answeredQuestionsMap
      ∧ (step (QuizEvent.navigate 1) immStart).quizTimeLeft
        = immStart.quizTimeLeft
      ∧ (step (QuizEvent.navigate 1) immStart).quizEnded = false) ∧
    ((step QuizEvent.tick immStart).visitedQuestionsMap.getD 0 false
        = true) :=
  ⟨(C8_navigation_guards_and_effects immStart 0
      (inv_start twoQ immSettings (by decide))).1 (Or.inl (by decide)),
    (C8_navigation_guards_and_effects immStart 1
      (inv_start twoQ immSettings (by decide))).2.1 (by decide) (by decide)
      (by decide) (by decide) (by decide) (by decide),
    (C8_navigation_guards_and_effects immStart 0
      (inv_start twoQ immSettings (by decide))).2.2 QuizEvent.tick 0
      (by decide)⟩

/-- C9: in review mode an accepted answer click (no selection displayed,
clock running, question screen showing) only records the chosen option for
the current question — overwriting any previous entry — and marks that
question answered: score, lives, correctAnswers, questionsAnswered and the
correctness-feedback field are all unchanged, and the session stays live. -/
theorem C9_review_answer_records_only :
    ∀ (s : QuizState) (i : Nat), Inv s → s.isReviewMode = true →
      s.quizEnded = false → s.showReviewScreen = false →
      s.selectedAnswer = none → s.isTimerRunning = true →
      (step (QuizEvent.answer i) s).userAnswers
          = s.userAnswers.set s.currentQuestionIndex (some i)
        ∧ (step (QuizEvent.answer i) s).answeredQuestionsMap
          = s.answeredQuestionsMap.set s.currentQuestionIndex true
        ∧ (step (QuizEvent.answer i) s).score = s.score
        ∧ (step (QuizEvent.answer i) s).lives = s.lives
        ∧ (step (QuizEvent.answer i) s).correctAnswers = s.correctAnswers
        ∧ (step (QuizEvent.answer i) s).answeredQuestions
          = s.answeredQuestions
        ∧ (step (QuizEvent.answer i) s).isAnswerCorrect = s.isAnswerCorrect
        ∧ (step (QuizEvent.answer i) s).quizTimeLeft = s.quizTimeLeft
        ∧ (step (QuizEvent.answer i) s).quizEnded = false := by
  intro s i hinv hrm he hsrs hsel hrn
  have hstep : step (QuizEvent.answer i) s
      = postRender (handleAnswerClick i s) := by
    unfold step
    rw [if_neg (ne_true_of_eq_false he)]
    show postRender (if s.showReviewScreen = true then s
      else handleAnswerClick i s) = _
    rw [if_neg (ne_true_of_eq_false hsrs)]
  have hac := hac_review i s hsel hrn hrm
  have hpr : postRender (handleAnswerClick i s) = handleAnswerClick i s := by
    rw [hac]
    apply postRender_id
    · rintro (hx | hx)
      · have hx' : s.questions.length ≤ s.currentQuestionIndex := hx
        exact Nat.lt_irrefl _ (Nat.lt_of_lt_of_le hinv.1.hcur hx')
      · exact hinv.2.2 he hx
    · intro h0
      have h0' : s.quizTimeLeft = 0 := h0
      have hz := (hinv.2.1 h0').2
      rw [he] at hz
      exact Bool.noConfusion hz
    · exact he
  rw [hstep, hpr, hac]
  exact ⟨rfl, rfl, rfl, rfl, rfl, rfl, rfl, rfl, he⟩

/-- C9 witness: the first answer click of a review session records option 1
for question 0 and marks it answered, with all totals untouched. -/
theorem C9_review_answer_records_only_witness :
    (step (QuizEvent.answer 1) (startState twoQ revSettings)).userAnswers
        = (startState twoQ revSettings).userAnswers.set
          (startState twoQ revSettings).currentQuestionIndex (some 1)
      ∧ (step (QuizEvent.answer 1)
            (startState twoQ revSettings)).answeredQuestionsMap
        = (startState twoQ revSettings).answeredQuestionsMap.set
          (startState twoQ revSettings).currentQuestionIndex true
      ∧ (step (QuizEvent.answer 1) (startState twoQ revSettings)).score
        = (startState twoQ revSettings).score
      ∧ (step (QuizEvent.answer 1) (startState twoQ revSettings)).lives
        = (startState twoQ revSettings).lives
      ∧ (step (QuizEvent.answer 1)
            (startState twoQ revSettings)).correctAnswers
        = (startState twoQ revSettings).correctAnswers
      ∧ (step (QuizEvent.answer 1)
            (startState twoQ revSettings)).answeredQuestions
        = (startState twoQ revSettings).answeredQuestions
      ∧ (step (QuizEvent.answer 1)
            (startState twoQ revSettings)).isAnswerCorrect
        = (startState twoQ revSettings).isAnswerCorrect
      ∧ (step (QuizEvent.answer 1) (startState twoQ revSettings)).quizTimeLeft
        = (startState twoQ revSettings).quizTimeLeft
      ∧ (step (QuizEvent.answer 1) (startState twoQ revSettings)).quizEnded
        = false :=
  C9_review_answer_records_only (startState twoQ revSettings) 1
    (inv_start twoQ revSettings (by decide)) (by decide) (by decide)
    (by decide) (by decide) (by decide)

/-- C10: when a live review-mode session sees its final clock tick (one
second left, no accepted submission so far), the session ends, the timer
stops, and the tally reported to the score callback is score 0, zero
questions answered, zero correct and no review payload — whatever answers
are sitting in `userAnswers`. -/
theorem C10_review_timeout_reports_zero :
    ∀ (s : QuizState), Inv s → s.isReviewMode = true → s.quizEnded = false →
      s.quizTimeLeft = 1 →
      (step QuizEvent.tick s).quizEnded = true
        ∧ (step QuizEvent.tick s).isTimerRunning = false
        ∧ (step QuizEvent.tick s).finalTally = some (
            { score := 0, answered := 0, correct := 0,
              reviewPayload := none } : Tally) := by
  intro s hinv hrm he ht1
  have hrn : s.isTimerRunning = true := by
    cases hx : s.isTimerRunning
    · have hz := hinv.1.hrun hx
      rw [he] at hz
      exact Bool.noConfusion hz
    · rfl
  have hu : stepEvent QuizEvent.tick s = { s with quizTimeLeft := 0 } := by
    show (if s.isTimerRunning = true ∧ 0 < s.quizTimeLeft
      then { s with quizTimeLeft := s.quizTimeLeft - 1 } else s) = _
    rw [if_pos ⟨hrn, by omega⟩]
    have h10 : s.quizTimeLeft - 1 = 0 := by omega
    rw [h10]
  have hguard : applyEndGuard ({ s with quizTimeLeft := 0 } : QuizState)
      = { s with quizTimeLeft := 0 } := by
    apply applyEndGuard_id
    rintro (hx | hx)
    · have hx' : s.questions.length ≤ s.currentQuestionIndex := hx
      exact Nat.lt_irrefl _ (Nat.lt_of_lt_of_le hinv.1.hcur hx')
    · exact hinv.2.2 he hx
  obtain ⟨z1, z2, z3⟩ := hinv.1.hrevZero hrm he
  have hv : applyTimeUp ({ s with quizTimeLeft := 0 } : QuizState)
      = ({ s with
          quizTimeLeft := 0,
          isTimerRunning := false,
          quizEnded := true } : QuizState) :=
    applyTimeUp_fire _ rfl
  have hw : applyEndTally ({ s with
        quizTimeLeft := 0,
        isTimerRunning := false,
        quizEnded := true } : QuizState)
      = ({ s with
          quizTimeLeft := 0,
          isTimerRunning := false,
          quizEnded := true,
          finalTally := some ({
            score := s.score,
            answered := s.answeredQuestions,
            correct := s.correctAnswers,
            reviewPayload := none } : Tally) } : QuizState) :=
    applyEndTally_fire _ rfl (hinv.1.htally he)
  unfold step
  rw [if_neg (ne_true_of_eq_false he), hu, postRender, hguard, hv, hw]
  refine ⟨rfl, rfl, ?_⟩
  show some ({
    score := s.score,
    answered := s.answeredQuestions,
    correct := s.correctAnswers,
    reviewPayload := none } : Tally) = _
  rw [z1, z2, z3]

/-- C10 witness: a one-second review session with an answer already recorded
still reports the zero tally when the clock runs out. -/
theorem C10_review_timeout_reports_zero_witness :
    (step QuizEvent.tick revShortAns).quizEnded = true
      ∧ (step QuizEvent.tick revShortAns).isTimerRunning = false
      ∧ (step QuizEvent.tick revShortAns).finalTally = some (
          { score := 0, answered := 0, correct := 0,
            reviewPayload := none } : Tally) :=
  C10_review_timeout_reports_zero revShortAns
    (inv_runEvents revShortStart [QuizEvent.answer 0]
      (inv_start twoQ shortRevSettings (by decide)))
    (by decide) (by decide) (by decide)

/-- C4: on the review screen of a live review-mode session, submission is
rejected — leaving the whole state unchanged, the session still on the
review screen — exactly when some question has no recorded answer; an
accepted submission scores the recorded answers in one pass (sum of points
of the questions answered correctly, count of such questions, number of
entries), ends the session, and attaches the question list and the recorded
answers as the review payload; when every recorded answer is correct the
submitted score is the sum of all point values and correctAnswers equals the
number of questions. -/
theorem C4_review_submission_validation_and_scoring :
    ∀ (s : QuizState), Inv s → s.isReviewMode = true → s.quizEnded = false →
      s.showReviewScreen = true →
      ((∃ j, j < s.questions.length ∧ s.userAnswers.getD j none = none)
          ↔ answeredCnt s.userAnswers < s.questions.length) ∧
      ((∃ j, j < s.questions.length ∧ s.userAnswers.getD j none = none) →
        step QuizEvent.submit s = s) ∧
      ((∀ j, j < s.questions.length →
          (s.userAnswers.getD j none).isSome = true) →
        (step QuizEvent.submit s).score = scoreOf s.questions s.userAnswers
          ∧ (step QuizEvent.submit s).correctAnswers
            = correctCnt s.questions s.userAnswers
          ∧ (step QuizEvent.submit s).answeredQuestions
            = s.questions.length
          ∧ (step QuizEvent.submit s).quizEnded = true
          ∧ (step QuizEvent.submit s).finalTally = some (
              { score := scoreOf s.questions s.userAnswers,
                answered := s.questions.length,
                correct := correctCnt s.questions s.userAnswers,
                reviewPayload := some ({
                  questions := s.questions,
                  userAnswers := s.userAnswers } : ReviewData) } : Tally)) ∧
      ((∀ j, j < s.questions.length → s.userAnswers.getD j none
            = some ((s.questions.getD j defaultQuestion).correctAnswer)) →
        (step QuizEvent.submit s).score = sumPoints s.questions
          ∧ (step QuizEvent.submit s).correctAnswers
            = s.questions.length) := by
  intro s hinv hrm he hsrs
  have hul := hinv.1.huaLen
  have hiff : (∃ j, j < s.questions.length
      ∧ s.userAnswers.getD j none = none)
      ↔ answeredCnt s.userAnswers < s.questions.length := by
    constructor
    · rintro ⟨j, hj, hv⟩
      have hx := answeredCnt_lt_of_none s.userAnswers j
        (by rw [hul]; exact hj) hv
      rw [hul] at hx
      exact hx
    · intro hlt
      have hlt' : answeredCnt s.userAnswers < s.userAnswers.length := by
        rw [hul]
        exact hlt
      obtain ⟨j, hj, hv⟩ := exists_none_of_lt _ hlt'
      rw [hul] at hj
      exact ⟨j, hj, hv⟩
  have hrejpart : (∃ j, j < s.questions.length
      ∧ s.userAnswers.getD j none = none) → step QuizEvent.submit s = s := by
    intro hex
    apply step_eq_self _ _ hinv he
    show (if s.showReviewScreen = true then handleSubmitReview s else s) = s
    rw [if_pos hsrs]
    exact hsr_rejected s (hiff.1 hex)
  have haccpart : (∀ j, j < s.questions.length →
      (s.userAnswers.getD j none).isSome = true) →
      (step QuizEvent.submit s).score = scoreOf s.questions s.userAnswers
        ∧ (step QuizEvent.submit s).correctAnswers
          = correctCnt s.questions s.userAnswers
        ∧ (step QuizEvent.submit s).answeredQuestions = s.questions.length
        ∧ (step QuizEvent.submit s).quizEnded = true
        ∧ (step QuizEvent.submit s).finalTally = some (
            { score := scoreOf s.questions s.userAnswers,
              answered := s.questions.length,
              correct := correctCnt s.questions s.userAnswers,
              reviewPayload := some ({
                questions := s.questions,
                userAnswers := s.userAnswers } : ReviewData) } : Tally) := by
    intro hall
    have hcnt : answeredCnt s.userAnswers = s.questions.length := by
      have hx := answeredCnt_eq_of_all s.userAnswers
        (fun j hj => hall j (by rw [← hul]; exact hj))
      rw [hul] at hx
      exact hx
    have hnlt : ¬ answeredCnt s.userAnswers < s.questions.length := by omega
    have hacc := hsr_accepted s hnlt
    have hstep : step QuizEvent.submit s
        = postRender (handleSubmitReview s) := by
      unfold step
      rw [if_neg (ne_true_of_eq_false he)]
      show postRender (if s.showReviewScreen = true
        then handleSubmitReview s else s) = _
      rw [if_pos hsrs]
    have hpr : postRender (handleSubmitReview s) = handleSubmitReview s := by
      rw [hacc, postRender]
      rw [applyEndGuard_id_of_ended _ rfl]
      rw [applyTimeUp_id _ ?ht]
      rw [applyEndTally_id_of_reported _ ?hrep]
      case ht =>
        intro h0
        have h0' : s.quizTimeLeft = 0 := h0
        have hz := (hinv.2.1 h0').2
        rw [he] at hz
        exact Bool.noConfusion hz
      case hrep =>
        intro hx
        exact Option.noConfusion hx
    rw [hstep, hpr, hacc]
    exact ⟨rfl, rfl, hcnt, rfl, by rw [hcnt]⟩
  refine ⟨hiff, hrejpart, haccpart, ?_⟩
  intro hall
  have hsome : ∀ j, j < s.questions.length →
      (s.userAnswers.getD j none).isSome = true := by
    intro j hj
    rw [hall j hj]
    rfl
  obtain ⟨p1, p2, -, -, -⟩ := haccpart hsome
  obtain ⟨hs, hcc⟩ := scoreOf_all_correct s.questions s.userAnswers hul hall
  exact ⟨by rw [p1, hs], by rw [p2, hcc]⟩

/-- C4 witness: on a review screen with the second question unanswered the
submission is rejected and nothing changes; on a fully (and correctly)
answered review screen the submission scores the sum of all points and ends
the session with the review payload attached. -/
theorem C4_review_submission_validation_and_scoring_witness :
    ((∃ j, j < revIncomplete.questions.length
        ∧ revIncomplete.userAnswers.getD j none = none)
      ↔ answeredCnt revIncomplete.userAnswers
          < revIncomplete.questions.length) ∧
    step QuizEvent.submit revIncomplete = revIncomplete ∧
    ((step QuizEvent.submit revScreenAll).score
        = scoreOf revScreenAll.questions revScreenAll.userAnswers
      ∧ (step QuizEvent.submit revScreenAll).correctAnswers
        = correctCnt revScreenAll.questions revScreenAll.userAnswers
      ∧ (step QuizEvent.submit revScreenAll).answeredQuestions
        = revScreenAll.questions.length
      ∧ (step QuizEvent.submit revScreenAll).quizEnded = true
      ∧ (step QuizEvent.submit revScreenAll).finalTally = some (
          { score := scoreOf revScreenAll.questions revScreenAll.userAnswers,
            answered := revScreenAll.questions.length,
            correct := correctCnt revScreenAll.questions
              revScreenAll.userAnswers,
            reviewPayload := some ({
              questions := revScreenAll.questions,
              userAnswers := revScreenAll.userAnswers } :
                ReviewData) } : Tally)) ∧
    ((step QuizEvent.submit revScreenAll).score
        = sumPoints revScreenAll.questions
      ∧ (step QuizEvent.submit revScreenAll).correctAnswers
        = revScreenAll.questions.length) :=
  ⟨(C4_review_submission_validation_and_scoring revIncomplete
      (inv_runEvents (startState twoQ revSettings)
        [QuizEvent.answer 0, QuizEvent.navigate 1, QuizEvent.advance]
        (inv_start twoQ revSettings (by decide)))
      (by decide) (by decide) (by decide)).1,
    (C4_review_submission_validation_and_scoring revIncomplete
      (inv_runEvents (startState twoQ revSettings)
        [QuizEvent.answer 0, QuizEvent.navigate 1, QuizEvent.advance]
        (inv_start twoQ revSettings (by decide)))
      (by decide) (by decide) (by decide)).2.1 ⟨1, by decide, by decide⟩,
    (C4_review_submission_validation_and_scoring revScreenAll
      (inv_runEvents (startState twoQ revSettings)
        [QuizEvent.answer 0, QuizEvent.advance, QuizEvent.answer 1,
          QuizEvent.advance]
        (inv_start twoQ revSettings (by decide)))
      (by decide) (by decide) (by decide)).2.2.1 (by decide),
    (C4_review_submission_validation_and_scoring revScreenAll
      (inv_runEvents (startState twoQ revSettings)
        [QuizEvent.answer 0, QuizEvent.advance, QuizEvent.answer 1,
          QuizEvent.advance]
        (inv_start twoQ revSettings (by decide)))
      (by decide) (by decide) (by decide)).2.2.2 (by decide)⟩

/-- C2: after an accepted immediate-mode answer the deferred advance runs
`moveToNextQuestion`, which picks the next current question by scanning
forward from currentIndex+1 to the end of the order for the first
unanswered index, and — only if that scan fails — wrapping around to scan
from 0 up to (not including) currentIndex; when neither scan finds an
unanswered index (in particular when every question is answered) the
session ends as a normal completion, and when lives are enabled with zero
lives remaining it ends regardless of remaining unanswered questions. -/
theorem C2_wraparound_next_question_selection :
    ∀ (s : QuizState), s.isReviewMode = false →
      s.currentQuestionIndex < s.questions.length →
      s.answeredQuestionsMap.length = s.questions.length →
      (∀ j, s.currentQuestionIndex + 1 ≤ j → j < s.questions.length →
        s.answeredQuestionsMap.getD j false = false →
        (∀ k, s.currentQuestionIndex + 1 ≤ k → k < j →
          s.answeredQuestionsMap.getD k false = true) →
        ¬(s.settings.livesEnabled = true ∧ s.lives ≤ 0) →
        (moveToNextQuestion s).currentQuestionIndex = j
          ∧ (moveToNextQuestion s).quizEnded = s.quizEnded) ∧
      (∀ j, (∀ k, s.currentQuestionIndex + 1 ≤ k →
          k < s.questions.length →
          s.answeredQuestionsMap.getD k false = true) →
        j < s.currentQuestionIndex →
        s.answeredQuestionsMap.getD j false = false →
        (∀ k, k < j → s.answeredQuestionsMap.getD k false = true) →
        ¬(s.settings.livesEnabled = true ∧ s.lives ≤ 0) →
        (moveToNextQuestion s).currentQuestionIndex = j
          ∧ (moveToNextQuestion s).quizEnded = s.quizEnded) ∧
      ((∀ k, k < s.questions.length → ¬ k = s.currentQuestionIndex →
          s.answeredQuestionsMap.getD k false = true) →
        (moveToNextQuestion s).quizEnded = true) ∧
      (s.settings.livesEnabled = true → s.lives = 0 →
        (moveToNextQuestion s).quizEnded = true) := by
  intro s hrm hcur hmaplen
  refine ⟨?_, ?_, ?_, ?_⟩
  · intro j h1 h2 hun hfirst hlv
    have hcntlt : ¬ s.questions.length
        ≤ countTrue s.answeredQuestionsMap := by
      have hx := countTrue_lt s.answeredQuestionsMap j
        (by rw [hmaplen]; exact h2) hun
      rw [hmaplen] at hx
      omega
    have hne1 : ¬ s.questions.length = 1 := by omega
    have hfw : findUnanswered s.answeredQuestionsMap
        (s.currentQuestionIndex + 1) s.questions.length = some j := by
      unfold findUnanswered
      exact findAux_eq_some _ _ _ _ h1 (by omega) hun hfirst
    have hfn : findNextIndex s = some j := by
      unfold findNextIndex
      rw [hfw]
    rw [mtn_found s j hcntlt hlv hne1 hfn]
    exact ⟨rfl, rfl⟩
  · intro j hallfw hj hun hfirst hlv
    have hcntlt : ¬ s.questions.length
        ≤ countTrue s.answeredQuestionsMap := by
      have hx := countTrue_lt s.answeredQuestionsMap j
        (by rw [hmaplen]; omega) hun
      rw [hmaplen] at hx
      omega
    have hne1 : ¬ s.questions.length = 1 := by omega
    have hfwnone : findUnanswered s.answeredQuestionsMap
        (s.currentQuestionIndex + 1) s.questions.length = none := by
      unfold findUnanswered
      apply findAux_eq_none
      intro k hk1 hk2
      exact hallfw k hk1 (by omega)
    have hwrap : findUnanswered s.answeredQuestionsMap 0
        s.currentQuestionIndex = some j := by
      unfold findUnanswered
      exact findAux_eq_some _ _ _ _ (Nat.zero_le _) (by omega) hun
        (fun k _ hk => hfirst k hk)
    have hfn : findNextIndex s = some j := by
      unfold findNextIndex
      rw [hfwnone]
      exact hwrap
    rw [mtn_found s j hcntlt hlv hne1 hfn]
    exact ⟨rfl, rfl⟩
  · intro hexh
    by_cases b1 : s.questions.length ≤ countTrue s.answeredQuestionsMap
    · rw [mtn_all_imm s b1 hrm]
    · by_cases b2 : s.settings.livesEnabled = true ∧ s.lives ≤ 0
      · rw [mtn_lives s b1 b2]
      · by_cases b3 : s.questions.length = 1
        · rw [mtn_single_imm s b1 b2 b3 hrm]
        · have hfn : findNextIndex s = none := by
            unfold findNextIndex
            have hfw : findUnanswered s.answeredQuestionsMap
                (s.currentQuestionIndex + 1) s.questions.length = none := by
              unfold findUnanswered
              apply findAux_eq_none
              intro k hk1 hk2
              exact hexh k (by omega) (by omega)
            rw [hfw]
            unfold findUnanswered
            apply findAux_eq_none
            intro k hk1 hk2
            exact hexh k (by omega) (by omega)
          rw [mtn_none_imm s b1 b2 b3 hfn hrm]
  · intro hl h0
    by_cases b1 : s.questions.length ≤ countTrue s.answeredQuestionsMap
    · rw [mtn_all_imm s b1 hrm]
    · rw [mtn_lives s b1 ⟨hl, by omega⟩]

/-- C2 witness: from a fresh two-question session the advance moves forward
to question 1; from a session sitting on question 1 with only question 1
answered it wraps around to question 0; on the last unanswered question it
ends the quiz; with lives enabled and none left it ends the quiz. -/
theorem C2_wraparound_next_question_selection_witness :
    ((moveToNextQuestion immStart).currentQuestionIndex = 1
      ∧ (moveToNextQuestion immStart).quizEnded = immStart.quizEnded) ∧
    ((moveToNextQuestion c2Wrap).currentQuestionIndex = 0
      ∧ (moveToNextQuestion c2Wrap).quizEnded = c2Wrap.quizEnded) ∧
    (moveToNextQuestion c2Last).quizEnded = true ∧
    (moveToNextQuestion c2Dead).quizEnded = true :=
  ⟨(C2_wraparound_next_question_selection immStart (by decide) (by decide)
      (by decide)).1 1 (by decide) (by decide) (by decide)
      (by intro k hk1 hk2; omega) (by decide),
    (C2_wraparound_next_question_selection c2Wrap (by decide) (by decide)
      (by decide)).2.1 0 (by
        intro k hk1 hk2
        have h1 : (2 : Nat) ≤ k := hk1
        have h2 : k < 2 := hk2
        omega) (by decide) (by decide)
      (by intro k hk; omega) (by decide),
    (C2_wraparound_next_question_selection c2Last (by decide) (by decide)
      (by decide)).2.2.1 (by
        intro k hk hne
        rcases k with _ | _ | k
        · rfl
        · exact absurd rfl hne
        · have h2 : k + 2 < 2 := hk
          omega),
    (C2_wraparound_next_question_selection c2Dead (by decide) (by decide)
      (by decide)).2.2.2 (by decide) (by decide)⟩

/-- C6: in an immediate-feedback session with lives enabled and a single
life, an incorrect first answer deducts the life (leaving zero), ends the
session right after that single answer with one question answered and none
correct, and no later event changes anything — no further question can be
answered. -/
theorem C6_single_life_first_wrong_answer_ends :
    ∀ (order : List Question) (settings : Settings) (i : Nat)
      (evs : List QuizEvent),
      settings.reviewModeEnabled = false → settings.livesEnabled = true →
      settings.lives = 1 → 0 < settings.quizDurationSeconds →
      0 < order.length →
      ¬ i = (order.getD 0 defaultQuestion).correctAnswer →
      (step (QuizEvent.answer i) (startState order settings)).lives = 0
        ∧ (step (QuizEvent.answer i) (startState order settings)).quizEnded
          = true
        ∧ (step (QuizEvent.answer i)
            (startState order settings)).answeredQuestions = 1
        ∧ (step (QuizEvent.answer i)
            (startState order settings)).correctAnswers = 0
        ∧ runEvents
            (step (QuizEvent.answer i) (startState order settings)) evs
          = step (QuizEvent.answer i) (startState order settings) := by
  intro order settings i evs hrm hl h1 hd hlen hwrong
  have hss : startState order settings = initState order settings := by
    unfold startState
    apply postRender_id
    · rintro (hx | hx)
      · have hx' : order.length ≤ 0 := hx
        omega
      · have hx2 : settings.lives ≤ 0 := hx.2
        rw [h1] at hx2
        omega
    · intro h0
      have h0' : settings.quizDurationSeconds = 0 := h0
      omega
    · rfl
  rw [hss]
  have hac := hac_imm_wrong_lives i (initState order settings) rfl rfl hrm
    hwrong hl
  have hse : stepEvent (QuizEvent.answer i) (initState order settings)
      = handleAnswerClick i (initState order settings) := by
    show (if (initState order settings).showReviewScreen = true
      then initState order settings
      else handleAnswerClick i (initState order settings)) = _
    rw [if_neg (ne_true_of_eq_false
      (rfl : (initState order settings).showReviewScreen = false))]
  have hstep : step (QuizEvent.answer i) (initState order settings)
      = postRender (handleAnswerClick i (initState order settings)) := by
    unfold step
    rw [if_neg (ne_true_of_eq_false
      (rfl : (initState order settings).quizEnded = false)), hse]
  have hl0 : settings.lives - 1 ≤ 0 := by omega
  have hg : applyEndGuard (handleAnswerClick i (initState order settings))
      = { handleAnswerClick i (initState order settings) with
          quizEnded := true } := by
    rw [hac]
    exact applyEndGuard_fire _ rfl rfl (Or.inr ⟨hl, hl0⟩)
  have hended : (step (QuizEvent.answer i)
      (initState order settings)).quizEnded = true := by
    rw [hstep, postRender, applyEndTally_quizEnded, hg]
    exact applyTimeUp_ended_mono _ rfl
  obtain ⟨-, -, -, -, flv, -, -, -, -, faq, fca, -, -, -, -, -⟩ :=
    postRender_facts (handleAnswerClick i (initState order settings))
  refine ⟨?_, hended, ?_, ?_, runEvents_ended _ evs hended⟩
  · rw [hstep, flv, hac]
    show settings.lives - 1 = 0
    omega
  · rw [hstep, faq, hac]
    show (initState order settings).answeredQuestions + 1 = 1
    rfl
  · rw [hstep, fca, hac]
    show (initState order settings).correctAnswers = 0
    rfl

/-- C6 witness: a wrong first answer with a single life on a fresh
two-question session leaves zero lives, ends the quiz with one answered and
none correct, and a later tick plus advance change nothing. -/
theorem C6_single_life_first_wrong_answer_ends_witness :
    (step (QuizEvent.answer 1) (startState twoQ oneLifeSettings)).lives = 0
      ∧ (step (QuizEvent.answer 1)
          (startState twoQ oneLifeSettings)).quizEnded = true
      ∧ (step (QuizEvent.answer 1)
          (startState twoQ oneLifeSettings)).answeredQuestions = 1
      ∧ (step (QuizEvent.answer 1)
          (startState twoQ oneLifeSettings)).correctAnswers = 0
      ∧ runEvents (step (QuizEvent.answer 1)
            (startState twoQ oneLifeSettings))
          [QuizEvent.tick, QuizEvent.advance]
        = step (QuizEvent.answer 1) (startState twoQ oneLifeSettings) :=
  C6_single_life_first_wrong_answer_ends twoQ oneLifeSettings 1
    [QuizEvent.tick, QuizEvent.advance] (by decide) (by decide) (by decide)
    (by decide) (by decide) (by decide)

/-- C1: in immediate-feedback mode the running totals always agree with the
recorded answers — score is the sum of the point values of the questions
whose recorded answer equals their correct-answer index, correctAnswers
counts those questions, and questionsAnswered equals correctAnswers plus
the number of incorrect recorded answers; every state of a session run from
mount satisfies the invariant with the session's order and immediate mode,
so in particular these equalities hold at session end; and each accepted
answer changes score by exactly the question's own point value when correct
(independent of the timeBonus or pointsPerCorrectAnswer settings and of the
remaining time) and by nothing when incorrect, increments correctAnswers
exactly on correct answers, and increments questionsAnswered always. -/
theorem C1_immediate_flat_scoring_totals :
    (∀ (s : QuizState), Inv s → s.isReviewMode = false →
      s.score = scoreOf s.questions s.userAnswers
        ∧ s.correctAnswers = correctCnt s.questions s.userAnswers
        ∧ s.answeredQuestions
          = s.correctAnswers + incorrectCnt s.questions s.userAnswers) ∧
    (∀ (order : List Question) (settings : Settings)
        (evs : List QuizEvent),
      settings.reviewModeEnabled = false → 0 < order.length →
      Inv (runEvents (startState order settings) evs)
        ∧ (runEvents (startState order settings) evs).questions = order
        ∧ (runEvents (startState order settings) evs).isReviewMode
          = false) ∧
    (∀ (s : QuizState) (i : Nat), Inv s → s.isReviewMode = false →
      s.quizEnded = false → s.selectedAnswer = none →
      s.isTimerRunning = true →
      ((i = (s.questions.getD s.currentQuestionIndex
          defaultQuestion).correctAnswer →
        (step (QuizEvent.answer i) s).score
            = s.score + (s.questions.getD s.currentQuestionIndex
              defaultQuestion).points
          ∧ (step (QuizEvent.answer i) s).correctAnswers
            = s.correctAnswers + 1)
        ∧ (¬ i = (s.questions.getD s.currentQuestionIndex
            defaultQuestion).correctAnswer →
          (step (QuizEvent.answer i) s).score = s.score
            ∧ (step (QuizEvent.answer i) s).correctAnswers
              = s.correctAnswers)
        ∧ (step (QuizEvent.answer i) s).answeredQuestions
          = s.answeredQuestions + 1)) := by
  refine ⟨?_, ?_, ?_⟩
  · intro s hinv hrm
    refine ⟨hinv.1.himmScore hrm, hinv.1.himmCorrect hrm, ?_⟩
    rw [hinv.1.himmAnswered hrm, hinv.1.himmCorrect hrm]
    exact answeredCnt_split s.questions s.userAnswers hinv.1.huaLen
  · intro order settings evs hrev hlen
    have hinv := inv_runEvents (startState order settings) evs
      (inv_start order settings hlen)
    obtain ⟨hcs, hcq⟩ := runEvents_const (startState order settings) evs
    obtain ⟨hs1, hs2⟩ := startState_const order settings
    refine ⟨hinv, by rw [hcq, hs2], ?_⟩
    rw [hinv.1.hmode, hcs, hs1, hrev]
  · intro s i hinv hrm he hsel hrn
    have hsrs := hinv.1.himmRs hrm
    have hstep : step (QuizEvent.answer i) s
        = postRender (handleAnswerClick i s) := by
      unfold step
      rw [if_neg (ne_true_of_eq_false he)]
      show postRender (if s.showReviewScreen = true then s
        else handleAnswerClick i s) = _
      rw [if_neg (ne_true_of_eq_false hsrs)]
    obtain ⟨-, -, -, -, -, fsc, -, -, -, faq, fca, -, -, -, -, -⟩ :=
      postRender_facts (handleAnswerClick i s)
    refine ⟨?_, ?_, ?_⟩
    · intro hcor
      constructor
      · rw [hstep, fsc, hac_imm_correct i s hsel hrn hrm hcor]
      · rw [hstep, fca, hac_imm_correct i s hsel hrn hrm hcor]
    · intro hcor
      by_cases hlv : s.settings.livesEnabled = true
      · constructor
        · rw [hstep, fsc, hac_imm_wrong_lives i s hsel hrn hrm hcor hlv]
        · rw [hstep, fca, hac_imm_wrong_lives i s hsel hrn hrm hcor hlv]
      · constructor
        · rw [hstep, fsc, hac_imm_wrong_nolives i s hsel hrn hrm hcor hlv]
        · rw [hstep, fca, hac_imm_wrong_nolives i s hsel hrn hrm hcor hlv]
    · by_cases hcor : i = (s.questions.getD s.currentQuestionIndex
          defaultQuestion).correctAnswer
      · rw [hstep, faq, hac_imm_correct i s hsel hrn hrm hcor]
      · by_cases hlv : s.settings.livesEnabled = true
        · rw [hstep, faq, hac_imm_wrong_lives i s hsel hrn hrm hcor hlv]
        · rw [hstep, faq, hac_imm_wrong_nolives i s hsel hrn hrm hcor hlv]

/-- C1 witness: after one answer the totals of the session agree with the
recorded answers; a two-event run from mount satisfies the invariant over
its order in immediate mode; and from the start, answering correctly adds
exactly the question's 50 points, answering incorrectly adds nothing, and
either way questionsAnswered goes up by one. -/
theorem C1_immediate_flat_scoring_totals_witness :
    (immAfterOne.score = scoreOf immAfterOne.questions immAfterOne.userAnswers
      ∧ immAfterOne.correctAnswers
        = correctCnt immAfterOne.questions immAfterOne.userAnswers
      ∧ immAfterOne.answeredQuestions
        = immAfterOne.correctAnswers
          + incorrectCnt immAfterOne.questions immAfterOne.userAnswers) ∧
    (Inv (runEvents (startState twoQ immSettings) [QuizEvent.answer 0])
      ∧ (runEvents (startState twoQ immSettings)
          [QuizEvent.answer 0]).questions = twoQ
      ∧ (runEvents (startState twoQ immSettings)
          [QuizEvent.answer 0]).isReviewMode = false) ∧
    ((0 = (immStart.questions.getD immStart.currentQuestionIndex
        defaultQuestion).correctAnswer →
      (step (QuizEvent.answer 0) immStart).score
          = immStart.score + (immStart.questions.getD
            immStart.currentQuestionIndex defaultQuestion).points
        ∧ (step (QuizEvent.answer 0) immStart).correctAnswers
          = immStart.correctAnswers + 1)
      ∧ (¬ 0 = (immStart.questions.getD immStart.currentQuestionIndex
          defaultQuestion).correctAnswer →
        (step (QuizEvent.answer 0) immStart).score = immStart.score
          ∧ (step (QuizEvent.answer 0) immStart).correctAnswers
            = immStart.correctAnswers)
      ∧ (step (QuizEvent.answer 0) immStart).answeredQuestions
        = immStart.answeredQuestions + 1) :=
  ⟨C1_immediate_flat_scoring_totals.1 immAfterOne
      (inv_runEvents immStart [QuizEvent.answer 0]
        (inv_start twoQ immSettings (by decide))) (by decide),
    C1_immediate_flat_scoring_totals.2.1 twoQ immSettings
      [QuizEvent.answer 0] (by decide) (by decide),
    C1_immediate_flat_scoring_totals.2.2 immStart 0
      (inv_start twoQ immSettings (by decide)) (by decide) (by decide)
      (by decide) (by decide)⟩

end Eroquiz
